import Mathlib

/-!
# Verification of the univer-file-import extraction pipeline

Shallow embedding, in Lean 4, of the parts of `src/fileImport.ts` that the
verified properties talk about: column-letter conversion, the Excel date
engine, chart-type classification and data-range merging, pivot-table
anchor adjustment, number-format classification, sheet-order construction,
cell emission and merge-border propagation.

Modelling conventions:
* JavaScript strings are modelled as `List Char` (or, for pure char-code
  arithmetic such as `String.fromCharCode`/`charCodeAt`, as `List Nat` of
  char codes).
* JavaScript numbers are modelled as `Int`/`Nat`; the few places where the
  source checks `isNaN`/`isFinite` are modelled with explicit option types
  or dedicated constructors.
* Mutable loops become folds or structural recursion; early `return`/`continue`
  becomes `Option`.
-/

namespace FileImport

/-! ## Column letter conversion (`columnIndexToLetter`, `columnLetterToIndex`)

`columnIndexToLetter` (src/fileImport.ts:4066) builds the letter string by
prepending `String.fromCharCode(temp % 26 + 65)` while `temp >= 0`, with
`temp = Math.floor(temp / 26) - 1` after each step.  The string is modelled
as the list of its char codes.  The JS loop runs at least once and stops as
soon as `Math.floor(temp / 26) - 1` is negative, i.e. when `temp < 26`. -/

def columnIndexToLetter (i : Nat) : List Nat :=
  if _h : i < 26 then [i % 26 + 65]
  else columnIndexToLetter (i / 26 - 1) ++ [i % 26 + 65]
decreasing_by
  have h1 : i / 26 < i := Nat.div_lt_self (by omega) (by omega)
  omega

/-- `columnLetterToIndex` (src/fileImport.ts:2829): `index = index * 26 +
(letter.charCodeAt(i) - 64)` over the string, then `index - 1`.  Char codes
are `Nat`, the accumulator is an `Int` exactly as JS arithmetic would give
for codes below 64. -/
def columnLetterToIndex (letter : List Nat) : Int :=
  (letter.foldl (fun (idx : Int) (c : Nat) => idx * 26 + ((c : Int) - 64)) 0) - 1

theorem columnIndexToLetter_foldl (i : Nat) :
    (columnIndexToLetter i).foldl (fun (idx : Int) (c : Nat) => idx * 26 + ((c : Int) - 64)) 0
      = (i : Int) + 1 := by
  induction i using Nat.strong_induction_on with
  | _ i ih =>
    rw [columnIndexToLetter]
    split
    · rename_i h
      simp [List.foldl]
      omega
    · rename_i h
      rw [List.foldl_append]
      have hlt : i / 26 - 1 < i := by
        have h1 : i / 26 < i := Nat.div_lt_self (by omega) (by omega)
        omega
      rw [ih _ hlt]
      simp only [List.foldl]
      have hq : 1 ≤ i / 26 := Nat.le_div_iff_mul_le (by omega) |>.mpr (by omega)
      have hdm : 26 * (i / 26) + i % 26 = i := Nat.div_add_mod i 26
      have hmlt : i % 26 < 26 := Nat.mod_lt _ (by omega)
      have hcast : ((i / 26 - 1 : Nat) : Int) = (i / 26 : Nat) - 1 := by
        omega
      rw [hcast]
      push_cast
      omega

/-- C10: converting a 0-based column index to a column-letter string and
back is the identity: `columnLetterToIndex (columnIndexToLetter i) = i`
for every natural `i`. -/
theorem c10_column_letter_roundtrip (i : Nat) :
    columnLetterToIndex (columnIndexToLetter i) = (i : Int) := by
  unfold columnLetterToIndex
  rw [columnIndexToLetter_foldl]
  ring

/-! ## Shared string helpers -/

/-- Does `s` start with `pat`? -/
def startsWithList (pat s : List Char) : Bool :=
  match pat, s with
  | [], _ => true
  | _ :: _, [] => false
  | p :: ps, c :: cs => p == c && startsWithList ps cs

/-- Does `s` contain `pat` as a contiguous substring? -/
def containsList (s pat : List Char) : Bool :=
  startsWithList pat s ||
    (match s with
     | [] => false
     | _ :: rest => containsList rest pat)

/-- JavaScript `String.prototype.includes`: substring containment, modelled
on the char lists of the two strings. -/
def includesStr (s : String) (pat : String) : Bool :=
  containsList s.toList pat.toList

/-! ## Pivot table anchor adjustment (`parsePivotTablesFromXlsx`) -/

/-- `colToNum` (src/fileImport.ts:1043): 0-based column index from letters,
`num = num * 26 + (charCode - 64)` over the string, then `num - 1`. -/
def colToNum (col : List Nat) : Int :=
  (col.foldl (fun (n : Int) (c : Nat) => n * 26 + ((c : Int) - 64)) 0) - 1

structure PivotOccupiedRange where
  startRow : Int
  startColumn : Int
  endRow : Int
  endColumn : Int
deriving DecidableEq

structure PivotAnchor where
  anchorRow : Int
  anchorCol : Int
  occupiedRange : Option PivotOccupiedRange
deriving DecidableEq

/-- Lines 825-931 of `parsePivotTablesFromXlsx`: the `<location ref="...">`
range has been matched by `([A-Z]+)(\d+):([A-Z]+)(\d+)`; the arguments are
the four capture groups (letters as char-code lists, row numbers as the
parsed naturals) and `filterFields.length`.  Models `anchorRow`/`anchorCol`
extraction, `occupiedRange` construction, and the
`filterRowCount = filterFields.length * 2` upward shift with `Math.max(0, _)`
clamping, applied only when `filterRowCount > 0`. -/
def pivotLocationAnchor (startColL : List Nat) (startRowN : Nat)
    (endColL : List Nat) (endRowN : Nat) (filterFieldCount : Nat) : PivotAnchor :=
  let anchorCol := colToNum startColL
  let anchorRow : Int := (startRowN : Int) - 1
  let occupied : PivotOccupiedRange :=
    { startRow := (startRowN : Int) - 1
      startColumn := colToNum startColL
      endRow := (endRowN : Int) - 1
      endColumn := colToNum endColL }
  let filterRowCount : Int := (filterFieldCount : Int) * 2
  if filterRowCount > 0 then
    { anchorRow := max 0 (anchorRow - filterRowCount)
      anchorCol := anchorCol
      occupiedRange := some { occupied with
        startRow := max 0 (occupied.startRow - filterRowCount) } }
  else
    { anchorRow := anchorRow, anchorCol := anchorCol, occupiedRange := some occupied }

/-- C4: with `n` filter (page) fields, the emitted `anchorCell.row` and
`occupiedRange.startRow` both equal the location's parsed 0-based start row
minus `2 * n`, clamped at 0.  The location row number of a parsed A1
reference is at least 1. -/
theorem c4_pivot_filter_shift (sc : List Nat) (sr : Nat) (ec : List Nat)
    (er : Nat) (n : Nat) (h : 1 ≤ sr) :
    (pivotLocationAnchor sc sr ec er n).anchorRow
        = max 0 (((sr : Int) - 1) - 2 * n) ∧
    (pivotLocationAnchor sc sr ec er n).occupiedRange.map PivotOccupiedRange.startRow
        = some (max 0 (((sr : Int) - 1) - 2 * n)) := by
  simp only [pivotLocationAnchor]
  split
  · rename_i hpos
    refine ⟨?_, ?_⟩ <;> simp only [Option.map_some', Option.some.injEq] <;>
      rw [mul_comm]
  · rename_i hnpos
    have hn : (n : Int) = 0 := by omega
    refine ⟨?_, ?_⟩ <;>
      simp only [Option.map_some', Option.some.injEq, hn, mul_zero, sub_zero] <;>
      rw [max_eq_right (by omega : (0 : Int) ≤ (sr : Int) - 1)]

/-- C4 witness: a pivot with 2 filter fields anchored at `A11:C13`
(0-based start row 10) is shifted to row `10 - 4 = 6`. -/
theorem c4_pivot_filter_shift_witness :
    (pivotLocationAnchor [65] 11 [67] 13 2).anchorRow = 6 ∧
    (pivotLocationAnchor [65] 11 [67] 13 2).occupiedRange.map
      PivotOccupiedRange.startRow = some 6 := by
  have h := c4_pivot_filter_shift [65] 11 [67] 13 2 (by decide)
  refine ⟨?_, ?_⟩
  · rw [h.1]; decide
  · rw [h.2]; decide

/-! ## Number format classification (`parseNumFormat`, src/fileImport.ts:3314) -/

/-- Result record of `parseNumFormat`.  Each field is an `Option` so that a
JS key that is never assigned (`undefined`) is distinguishable from an
assigned one — the final spread `{ ...builtInFormats[numFmt], ...result }`
depends on key presence. -/
structure NumFmtInfo where
  ftype : Option String := none
  isPercent : Option Bool := none
  isCurrency : Option Bool := none
  isScientific : Option Bool := none
  hasThousandsSeparator : Option Bool := none
  decimalPlaces : Option Nat := none
  isDateTime : Option Bool := none
  hasNegativeFormat : Option Bool := none
  currencySymbol : Option String := none
deriving DecidableEq

/-- ASCII upper-casing of one char, modelling `String.prototype.toUpperCase`
on the characters that occur in number-format strings. -/
def charUpper (c : Char) : Char :=
  if 'a' ≤ c ∧ c ≤ 'z' then Char.ofNat (c.toNat - 32) else c

/-- ASCII lower-casing of one char (`String.prototype.toLowerCase`). -/
def charLower (c : Char) : Char :=
  if 'A' ≤ c ∧ c ≤ 'Z' then Char.ofNat (c.toNat + 32) else c

def strUpper (s : String) : String := String.mk (s.toList.map charUpper)

def strLower (s : String) : String := String.mk (s.toList.map charLower)

/-- The regex `\.([0#?]+)`: length of the first (greedy) run of `0`/`#`/`?`
that directly follows a `.`; `none` when the regex does not match. -/
def decimalRun : List Char → Option Nat
  | [] => none
  | c :: rest =>
    if c = '.' then
      let run := rest.takeWhile (fun d => d = '0' || d = '#' || d = '?')
      if run.length > 0 then some run.length else decimalRun rest
    else decimalRun rest

/-- The `builtInFormats` lookup table of `parseNumFormat`
(src/fileImport.ts:3365-3425), verbatim. -/
def builtInFormats (s : String) : Option NumFmtInfo :=
  if s = "General" then some { ftype := some "general" }
  else if s = "0" then some { ftype := some "number", decimalPlaces := some 0 }
  else if s = "0.00" then some { ftype := some "number", decimalPlaces := some 2 }
  else if s = "#,##0" then some { ftype := some "number", decimalPlaces := some 0, hasThousandsSeparator := some true }
  else if s = "#,##0.00" then some { ftype := some "number", decimalPlaces := some 2, hasThousandsSeparator := some true }
  else if s = "#,##0.0" then some { ftype := some "number", decimalPlaces := some 1, hasThousandsSeparator := some true }
  else if s = "#,##0.000" then some { ftype := some "number", decimalPlaces := some 3, hasThousandsSeparator := some true }
  else if s = "#,##0.0000" then some { ftype := some "number", decimalPlaces := some 4, hasThousandsSeparator := some true }
  else if s = "0.0" then some { ftype := some "number", decimalPlaces := some 1 }
  else if s = "0.000" then some { ftype := some "number", decimalPlaces := some 3 }
  else if s = "0.0000" then some { ftype := some "number", decimalPlaces := some 4 }
  else if s = "0%" then some { ftype := some "percent", decimalPlaces := some 0, isPercent := some true }
  else if s = "0.0%" then some { ftype := some "percent", decimalPlaces := some 1, isPercent := some true }
  else if s = "0.00%" then some { ftype := some "percent", decimalPlaces := some 2, isPercent := some true }
  else if s = "0.000%" then some { ftype := some "percent", decimalPlaces := some 3, isPercent := some true }
  else if s = "0.00E+00" then some { ftype := some "scientific", decimalPlaces := some 2, isScientific := some true }
  else if s = "##0.0E+0" then some { ftype := some "scientific", decimalPlaces := some 1, isScientific := some true }
  else if s = "¥#,##0" then some { ftype := some "currency", decimalPlaces := some 0, isCurrency := some true, currencySymbol := some "¥" }
  else if s = "¥#,##0.00" then some { ftype := some "currency", decimalPlaces := some 2, isCurrency := some true, currencySymbol := some "¥" }
  else if s = "\"¥\"#,##0" then some { ftype := some "currency", decimalPlaces := some 0, isCurrency := some true, currencySymbol := some "¥" }
  else if s = "\"¥\"#,##0.00" then some { ftype := some "currency", decimalPlaces := some 2, isCurrency := some true, currencySymbol := some "¥" }
  else if s = "$#,##0" then some { ftype := some "currency", decimalPlaces := some 0, isCurrency := some true, currencySymbol := some "$" }
  else if s = "$#,##0.00" then some { ftype := some "currency", decimalPlaces := some 2, isCurrency := some true, currencySymbol := some "$" }
  else if s = "\"$\"#,##0" then some { ftype := some "currency", decimalPlaces := some 0, isCurrency := some true, currencySymbol := some "$" }
  else if s = "\"$\"#,##0.00" then some { ftype := some "currency", decimalPlaces := some 2, isCurrency := some true, currencySymbol := some "$" }
  else if s = "_-¥* #,##0_-" then some { ftype := some "accounting", decimalPlaces := some 0, isCurrency := some true, currencySymbol := some "¥" }
  else if s = "_-¥* #,##0.00_-" then some { ftype := some "accounting", decimalPlaces := some 2, isCurrency := some true, currencySymbol := some "¥" }
  else if s = "yyyy-mm-dd" then some { ftype := some "date", isDateTime := some true }
  else if s = "yyyy/mm/dd" then some { ftype := some "date", isDateTime := some true }
  else if s = "yyyy年m月d日" then some { ftype := some "date", isDateTime := some true }
  else if s = "mm-dd-yy" then some { ftype := some "date", isDateTime := some true }
  else if s = "m/d/yy" then some { ftype := some "date", isDateTime := some true }
  else if s = "d-mmm-yy" then some { ftype := some "date", isDateTime := some true }
  else if s = "d-mmm" then some { ftype := some "date", isDateTime := some true }
  else if s = "mmm-yy" then some { ftype := some "date", isDateTime := some true }
  else if s = "h:mm" then some { ftype := some "time", isDateTime := some true }
  else if s = "h:mm:ss" then some { ftype := some "time", isDateTime := some true }
  else if s = "h:mm AM/PM" then some { ftype := some "time", isDateTime := some true }
  else if s = "h:mm:ss AM/PM" then some { ftype := some "time", isDateTime := some true }
  else if s = "yyyy-mm-dd h:mm" then some { ftype := some "datetime", isDateTime := some true }
  else if s = "yyyy-mm-dd h:mm:ss" then some { ftype := some "datetime", isDateTime := some true }
  else if s = "m/d/yy h:mm" then some { ftype := some "datetime", isDateTime := some true }
  else if s = "@" then some { ftype := some "text" }
  else none

/-- The JS spread `{ ...b, ...r }` on `NumFmtInfo`: keys present in `r`
override `b`. -/
def mergeFmt (b r : NumFmtInfo) : NumFmtInfo where
  ftype := r.ftype <|> b.ftype
  isPercent := r.isPercent <|> b.isPercent
  isCurrency := r.isCurrency <|> b.isCurrency
  isScientific := r.isScientific <|> b.isScientific
  hasThousandsSeparator := r.hasThousandsSeparator <|> b.hasThousandsSeparator
  decimalPlaces := r.decimalPlaces <|> b.decimalPlaces
  isDateTime := r.isDateTime <|> b.isDateTime
  hasNegativeFormat := r.hasNegativeFormat <|> b.hasNegativeFormat
  currencySymbol := r.currencySymbol <|> b.currencySymbol

def numFmtHasAnyKey (r : NumFmtInfo) : Bool :=
  r.ftype.isSome || r.isPercent.isSome || r.isCurrency.isSome ||
  r.isScientific.isSome || r.hasThousandsSeparator.isSome ||
  r.decimalPlaces.isSome || r.isDateTime.isSome ||
  r.hasNegativeFormat.isSome || r.currencySymbol.isSome

def dateTimePatterns : List String :=
  ["yyyy", "yy", "mm", "dd", "hh", "ss", "AM/PM", "am/pm"]

/-- `parseNumFormat` (src/fileImport.ts:3314-3434): the substring probes,
the decimal-run count (always assigned, with `else` branch `0`), the
built-in table lookup merged under the scan result, and `undefined`
(`none`) when nothing was detected and the format is not built in. -/
def parseNumFormat (numFmt : String) : Option NumFmtInfo :=
  let result : NumFmtInfo :=
    { isPercent := if includesStr numFmt "%" then some true else none
      isCurrency :=
        if includesStr numFmt "$" || includesStr numFmt "¥" ||
           includesStr numFmt "€" || includesStr numFmt "£"
        then some true else none
      isScientific :=
        if includesStr (strUpper numFmt) "E+" || includesStr (strUpper numFmt) "E-"
        then some true else none
      hasThousandsSeparator := if includesStr numFmt "," then some true else none
      decimalPlaces := some ((decimalRun numFmt.toList).getD 0)
      isDateTime :=
        if dateTimePatterns.any
            (fun p => includesStr (strLower numFmt) (strLower p))
        then some true else none
      hasNegativeFormat :=
        if includesStr numFmt "[Red]" ||
           (includesStr numFmt "(" && includesStr numFmt ")")
        then some true else none }
  match builtInFormats numFmt with
  | some b => some (mergeFmt b result)
  | none => if numFmtHasAnyKey result then some result else none

/-- C6: for the format string `"#,##0.00"` the resolver reports
`decimalPlaces = 2`, `hasThousandsSeparator = true`, and `isPercent`
falsy (the key is never assigned, so reading it yields a falsy value). -/
theorem c6_numfmt_comma_two_decimals :
    (parseNumFormat "#,##0.00").map NumFmtInfo.decimalPlaces = some (some 2) ∧
    (parseNumFormat "#,##0.00").map NumFmtInfo.hasThousandsSeparator
      = some (some true) ∧
    (parseNumFormat "#,##0.00").map (fun i => i.isPercent.getD false)
      = some false := by
  decide

/-! ## Chart type classification (`parseChartsFromXlsx`, src/fileImport.ts:547-622) -/

inductive ChartType
  | column | bar | line | area | pie | doughnut | scatter | radar | bubble
  | combo | stackedBar | percentStackedBar | stackedArea | percentStackedArea
  | wordCloud | funnel | relationship | waterfall | treemap | sankey
  | heatmap | boxPlot | unknown
deriving DecidableEq

/-- The family-specific element tags probed by the classification chain. -/
def familyTags : List String :=
  ["<c:barChart", "<c:lineChart", "<c:pieChart", "<c:doughnutChart",
   "<c:areaChart", "<c:scatterChart", "<c:radarChart", "<c:bubbleChart",
   "<c:ofPieChart", "<c:surfaceChart", "<c:stockChart"]

/-- Lines 558-618: the `chartXml.includes(...)` chain that classifies the
chart family, starting from the initialisation
`let chartType: ImportedChart['chartType'] = 'column'`.
`barDirVal`/`groupingVal` are the captured `val` attributes of the
`<c:barDir ... val="..."` / `<c:grouping ... val="..."` regex matches
(`none` when the regex finds no match). -/
def classifyChartType (chartXml : String) (barDirVal groupingVal : Option String) :
    ChartType :=
  if includesStr chartXml "<c:barChart" then
    let grouping := groupingVal.getD "clustered"
    if barDirVal = some "bar" then
      if grouping = "stacked" then .stackedBar
      else if grouping = "percentStacked" then .percentStackedBar
      else .bar
    else
      if grouping = "stacked" then .column
      else if grouping = "percentStacked" then .column
      else .column
  else if includesStr chartXml "<c:lineChart" then .line
  else if includesStr chartXml "<c:pieChart" then .pie
  else if includesStr chartXml "<c:doughnutChart" then .doughnut
  else if includesStr chartXml "<c:areaChart" then
    let grouping := groupingVal.getD "standard"
    if grouping = "stacked" then .stackedArea
    else if grouping = "percentStacked" then .percentStackedArea
    else .area
  else if includesStr chartXml "<c:scatterChart" then .scatter
  else if includesStr chartXml "<c:radarChart" then .radar
  else if includesStr chartXml "<c:bubbleChart" then .bubble
  else if includesStr chartXml "<c:ofPieChart" then .pie
  else if includesStr chartXml "<c:surfaceChart" then .scatter
  else if includesStr chartXml "<c:stockChart" then .combo
  else .column

/-- Lines 534-622: pivot charts (`<c:pivotSource` / `<c15:pivotSource`) are
skipped (`continue`, no `ImportedChart` emitted); any other chart is emitted
with the classified type. -/
def emittedChartType (chartXml : String) (barDirVal groupingVal : Option String) :
    Option ChartType :=
  if includesStr chartXml "<c:pivotSource" || includesStr chartXml "<c15:pivotSource"
  then none
  else some (classifyChartType chartXml barDirVal groupingVal)

/-- C1 counterexample: a chart XML containing none of the family-specific
tags is emitted with `chartType = column`, not `unknown` — the extractor's
default is the initialisation value `'column'`. -/
theorem c1_counterexample :
    (familyTags.all fun t => !(includesStr "<c:chartSpace></c:chartSpace>" t)) = true ∧
    emittedChartType "<c:chartSpace></c:chartSpace>" none none
      = some ChartType.column ∧
    ChartType.column ≠ ChartType.unknown := by
  decide

/-- C1 (amended): for every drawing-anchored chart whose chart XML contains
none of the family-specific element tags (and which is not a pivot chart,
since pivot charts are skipped), the emitted `ImportedChart` has
`chartType = column` — the extractor's default value. -/
theorem c1_no_family_tag_defaults_to_column (xml : String)
    (bd g : Option String)
    (hfam : ∀ t ∈ familyTags, includesStr xml t = false)
    (hpiv1 : includesStr xml "<c:pivotSource" = false)
    (hpiv2 : includesStr xml "<c15:pivotSource" = false) :
    emittedChartType xml bd g = some ChartType.column := by
  have h1 := hfam "<c:barChart" (by simp [familyTags])
  have h2 := hfam "<c:lineChart" (by simp [familyTags])
  have h3 := hfam "<c:pieChart" (by simp [familyTags])
  have h4 := hfam "<c:doughnutChart" (by simp [familyTags])
  have h5 := hfam "<c:areaChart" (by simp [familyTags])
  have h6 := hfam "<c:scatterChart" (by simp [familyTags])
  have h7 := hfam "<c:radarChart" (by simp [familyTags])
  have h8 := hfam "<c:bubbleChart" (by simp [familyTags])
  have h9 := hfam "<c:ofPieChart" (by simp [familyTags])
  have h10 := hfam "<c:surfaceChart" (by simp [familyTags])
  have h11 := hfam "<c:stockChart" (by simp [familyTags])
  simp [emittedChartType, classifyChartType, hpiv1, hpiv2,
    h1, h2, h3, h4, h5, h6, h7, h8, h9, h10, h11]

/-- C1 witness: the empty chart XML contains no family tag and is emitted
as a `column` chart. -/
theorem c1_no_family_tag_witness :
    emittedChartType "" none none = some ChartType.column :=
  c1_no_family_tag_defaults_to_column "" none none (by decide) (by decide)
    (by decide)

/-! ## Sheet order (`importExcelWithImages`, src/fileImport.ts:1275-1306) -/

/-- One step per entry of `workbook.worksheets` with its index
(`forEach((worksheet, sheetIndex) => ...)`): slots that are not worksheet
objects are skipped (`if (!worksheet) return`), otherwise the generated
`sheet-${nanoid()}` key — modelled as `idGen sheetIndex` — is pushed onto
`sheetOrder`. -/
def buildSheetOrderAux (idGen : Nat → String) :
    Nat → List (Option α) → List String
  | _, [] => []
  | i, none :: rest => buildSheetOrderAux idGen (i + 1) rest
  | i, some _ :: rest => idGen i :: buildSheetOrderAux idGen (i + 1) rest

def buildSheetOrder (worksheets : List (Option α)) (idGen : Nat → String) :
    List String :=
  buildSheetOrderAux idGen 0 worksheets

theorem buildSheetOrderAux_all_some (idGen : Nat → String)
    (ws : List (Option α)) (h : ∀ w ∈ ws, w.isSome) (i : Nat) :
    buildSheetOrderAux idGen i ws = (List.range' i ws.length).map idGen := by
  induction ws generalizing i with
  | nil => simp [buildSheetOrderAux]
  | cons w rest ih =>
    match w with
    | none => exact absurd (h none (by simp)) (by simp)
    | some a =>
      simp only [buildSheetOrderAux, List.length_cons, List.range',
        List.map_cons]
      rw [ih (fun w hw => h w (by simp [hw]))]

/-- C8: for a successfully loaded workbook (every slot of
`workbook.worksheets` holds a worksheet object), `sheetOrder` has exactly
one entry per source worksheet — including worksheets with no cells, since
the key is pushed before any cell is examined — and its entries are the
per-worksheet generated keys in source order. -/
theorem c8_sheet_order (ws : List (Option α)) (idGen : Nat → String)
    (h : ∀ w ∈ ws, w.isSome) :
    buildSheetOrder ws idGen = (List.range ws.length).map idGen ∧
    (buildSheetOrder ws idGen).length = ws.length := by
  have hmain : buildSheetOrder ws idGen = (List.range ws.length).map idGen := by
    unfold buildSheetOrder
    rw [buildSheetOrderAux_all_some idGen ws h 0, List.range_eq_range']
  exact ⟨hmain, by rw [hmain]; simp⟩

/-- C8 witness: a three-sheet workbook (the middle one empty of cells —
cell content plays no role in `buildSheetOrder`) yields three keys in
source order. -/
theorem c8_sheet_order_witness :
    buildSheetOrder [some 1, some 2, some 3] (fun i => toString i)
        = ["0", "1", "2"] ∧
    (buildSheetOrder [some 1, some 2, some 3] (fun i => toString i)).length
        = 3 := by
  have h := c8_sheet_order [some 1, some 2, some 3] (fun i => toString i)
    (by decide)
  refine ⟨?_, ?_⟩
  · rw [h.1]; rfl
  · rw [h.2]; rfl

/-! ## Chart data range merging (`parseExcelRange`, `numToCol`,
`mergeChartDataRanges`, src/fileImport.ts:296-375) -/

def isUpperAZ (c : Char) : Bool := 'A' ≤ c && c ≤ 'Z'

def isDigitCh (c : Char) : Bool := '0' ≤ c && c ≤ '9'

/-- `parseInt(digits, 10)` on a non-empty digit string. -/
def natOfDigits (ds : List Char) : Nat :=
  ds.foldl (fun n c => n * 10 + (c.toNat - 48)) 0

/-- The local `colToNum` of `parseExcelRange` (src/fileImport.ts:314-320):
1-based column index, `num = num * 26 + (charCodeAt(i) - 64)`. -/
def colToNum1 (col : List Char) : Nat :=
  col.foldl (fun n c => n * 26 + (c.toNat - 64)) 0

structure ParsedRange where
  sheetName : List Char
  startCol : Nat
  startRow : Nat
  endCol : Nat
  endRow : Nat
deriving DecidableEq

/-- Split a string at its last `!`, returning the parts before and after. -/
def splitAtLastBang : List Char → Option (List Char × List Char)
  | [] => none
  | c :: rest =>
    match splitAtLastBang rest with
    | some (a, b) => some (c :: a, b)
    | none => if c = '!' then some ([], rest) else none

/-- One cell reference `\$?([A-Z]+)\$?(\d+)` at the head of the input;
returns the letter group, the digit group and the remaining input. -/
def parseCellRef (s : List Char) : Option (List Char × List Char × List Char) :=
  let s1 := match s with | '$' :: r => r | _ => s
  let letters := s1.takeWhile isUpperAZ
  let r1 := s1.dropWhile isUpperAZ
  if letters.isEmpty then none
  else
    let r2 := match r1 with | '$' :: r => r | _ => r1
    let digits := r2.takeWhile isDigitCh
    let r3 := r2.dropWhile isDigitCh
    if digits.isEmpty then none
    else some (letters, digits, r3)

/-- `match[1].replace(/^'|'$/g, '')`: drop one leading and one trailing
quote. -/
def stripQuotes (s : List Char) : List Char :=
  let s1 := match s with | '\'' :: r => r | _ => s
  match s1.reverse with | '\'' :: r => r.reverse | _ => s1

/-- `parseExcelRange` (src/fileImport.ts:296-330): the anchored regex
`^(.+?)!\$?([A-Z]+)\$?(\d+)(?::\$?([A-Z]+)\$?(\d+))?$`.  The tail after the
`!` cannot contain another `!` (its character classes exclude it), so a
successful match is exactly a split at the *last* `!` with a non-empty
sheet part (`.` does not match a newline) whose tail parses completely. -/
def parseExcelRange (range : List Char) : Option ParsedRange :=
  match splitAtLastBang range with
  | none => none
  | some (sheet, rest) =>
    if sheet.isEmpty || sheet.contains '\n' then none
    else
      match parseCellRef rest with
      | none => none
      | some (l1, d1, r1) =>
        match r1 with
        | [] => some
            { sheetName := stripQuotes sheet
              startCol := colToNum1 l1, startRow := natOfDigits d1
              endCol := colToNum1 l1, endRow := natOfDigits d1 }
        | ':' :: r2 =>
          match parseCellRef r2 with
          | some (l2, d2, []) => some
              { sheetName := stripQuotes sheet
                startCol := colToNum1 l1, startRow := natOfDigits d1
                endCol := colToNum1 l2, endRow := natOfDigits d2 }
          | _ => none
        | _ => none

/-- `numToCol` (src/fileImport.ts:334-343): 1-based column number to
letters, prepending `String.fromCharCode(65 + (num - 1) % 26)` while
`num > 0` with `num = Math.floor((num - 1) / 26)`.  Implemented on a fuel
bound (`fuel = num` iterations always suffice since `num` strictly
decreases) so that the definition reduces by `decide`/`rfl`. -/
def numToColAux : Nat → Nat → List Char
  | _, 0 => []
  | 0, _ + 1 => []
  | fuel + 1, n + 1 => numToColAux fuel (n / 26) ++ [Char.ofNat (65 + n % 26)]

def numToCol (num : Nat) : List Char := numToColAux num num

/-- Decimal rendering of a natural, as JS string interpolation `${n}`
produces for a non-negative integer.  Fuel-bounded for reducibility. -/
def natToCharsAux : Nat → Nat → List Char
  | 0, n => [Char.ofNat (48 + n % 10)]
  | fuel + 1, n =>
    if n < 10 then [Char.ofNat (48 + n)]
    else natToCharsAux fuel (n / 10) ++ [Char.ofNat (48 + n % 10)]

def natToChars (n : Nat) : List Char := natToCharsAux n n

structure MergeBounds where
  minCol : Nat
  minRow : Nat
  maxCol : Nat
  maxRow : Nat
deriving DecidableEq

/-- One loop step of `mergeChartDataRanges`: fold the parsed range into the
running bounds (`none` models the untouched `Infinity` sentinels). -/
def extendBounds (acc : Option MergeBounds) (p : ParsedRange) : MergeBounds :=
  match acc with
  | none =>
    { minCol := min p.startCol p.endCol, minRow := min p.startRow p.endRow
      maxCol := max p.startCol p.endCol, maxRow := max p.startRow p.endRow }
  | some b =>
    { minCol := min b.minCol (min p.startCol p.endCol)
      minRow := min b.minRow (min p.startRow p.endRow)
      maxCol := max b.maxCol (max p.startCol p.endCol)
      maxRow := max b.maxRow (max p.startRow p.endRow) }

/-- The `for (const range of ranges)` loop of `mergeChartDataRanges`:
unparseable entries are skipped (`continue`). -/
def mergeLoop : List (List Char) → Option MergeBounds → Option MergeBounds
  | [], acc => acc
  | r :: rest, acc =>
    match parseExcelRange r with
    | none => mergeLoop rest acc
    | some p => mergeLoop rest (some (extendBounds acc p))

/-- The return format `` `${numToCol minCol}${minRow}:${numToCol maxCol}${maxRow}` ``. -/
def renderRange (b : MergeBounds) : List Char :=
  numToCol b.minCol ++ natToChars b.minRow ++ [':'] ++
    numToCol b.maxCol ++ natToChars b.maxRow

/-- `mergeChartDataRanges` (src/fileImport.ts:349-375). -/
def mergeChartDataRanges (ranges : List (List Char)) : List Char :=
  if ranges.isEmpty then []
  else
    match mergeLoop ranges none with
    | none => ranges.headD []
    | some b => renderRange b

/-- The rectangle `b` contains the parsed reference `p`. -/
def coversP (b : MergeBounds) (p : ParsedRange) : Prop :=
  b.minCol ≤ p.startCol ∧ b.minCol ≤ p.endCol ∧
  p.startCol ≤ b.maxCol ∧ p.endCol ≤ b.maxCol ∧
  b.minRow ≤ p.startRow ∧ b.minRow ≤ p.endRow ∧
  p.startRow ≤ b.maxRow ∧ p.endRow ≤ b.maxRow

/-- Each side of the rectangle `b` is attained by some parsed reference:
`b` is minimal among rectangles covering them all. -/
def attainedIn (b : MergeBounds) (ps : List ParsedRange) : Prop :=
  (∃ p ∈ ps, b.minCol = p.startCol ∨ b.minCol = p.endCol) ∧
  (∃ p ∈ ps, b.maxCol = p.startCol ∨ b.maxCol = p.endCol) ∧
  (∃ p ∈ ps, b.minRow = p.startRow ∨ b.minRow = p.endRow) ∧
  (∃ p ∈ ps, b.maxRow = p.startRow ∨ b.maxRow = p.endRow)

theorem mergeLoop_grow (rs : List (List Char)) (b0 : MergeBounds) :
    ∃ b, mergeLoop rs (some b0) = some b ∧
      b.minCol ≤ b0.minCol ∧ b.minRow ≤ b0.minRow ∧
      b0.maxCol ≤ b.maxCol ∧ b0.maxRow ≤ b.maxRow := by
  induction rs generalizing b0 with
  | nil => exact ⟨b0, rfl, le_refl _, le_refl _, le_refl _, le_refl _⟩
  | cons r rest ih =>
    simp only [mergeLoop]
    cases hp : parseExcelRange r with
    | none => exact ih b0
    | some p =>
      obtain ⟨b, hb, h1, h2, h3, h4⟩ := ih (extendBounds (some b0) p)
      refine ⟨b, hb, ?_, ?_, ?_, ?_⟩ <;>
        simp only [extendBounds] at h1 h2 h3 h4 <;> omega

theorem mergeLoop_cover (rs : List (List Char)) (acc : Option MergeBounds)
    (b : MergeBounds) (hm : mergeLoop rs acc = some b) :
    ∀ r ∈ rs, ∀ p, parseExcelRange r = some p → coversP b p := by
  induction rs generalizing acc with
  | nil => intro r hr; exact absurd hr (List.not_mem_nil r)
  | cons r0 rest ih =>
    intro r hr p hp
    simp only [mergeLoop] at hm
    cases hq : parseExcelRange r0 with
    | none =>
      rw [hq] at hm
      rcases List.mem_cons.mp hr with heq | hmem
      · subst heq; rw [hq] at hp; exact absurd hp (by simp)
      · exact ih acc hm r hmem p hp
    | some q =>
      rw [hq] at hm
      have hm2 : mergeLoop rest (some (extendBounds acc q)) = some b := hm
      rcases List.mem_cons.mp hr with heq | hmem
      · subst heq
        rw [hq] at hp
        injection hp with hpq; subst hpq
        obtain ⟨b', hb', h1, h2, h3, h4⟩ := mergeLoop_grow rest (extendBounds acc q)
        rw [hm2] at hb'
        injection hb' with hbb; subst hbb
        cases acc <;>
          (refine ⟨?_, ?_, ?_, ?_, ?_, ?_, ?_, ?_⟩ <;>
            simp only [extendBounds] at h1 h2 h3 h4 <;> omega)
      · exact ih _ hm2 r hmem p hp

theorem mergeLoop_attain_some (rs : List (List Char)) (b0 b : MergeBounds)
    (hm : mergeLoop rs (some b0) = some b) :
    (b.minCol = b0.minCol ∨
        ∃ p ∈ rs.filterMap parseExcelRange, b.minCol = p.startCol ∨ b.minCol = p.endCol) ∧
    (b.maxCol = b0.maxCol ∨
        ∃ p ∈ rs.filterMap parseExcelRange, b.maxCol = p.startCol ∨ b.maxCol = p.endCol) ∧
    (b.minRow = b0.minRow ∨
        ∃ p ∈ rs.filterMap parseExcelRange, b.minRow = p.startRow ∨ b.minRow = p.endRow) ∧
    (b.maxRow = b0.maxRow ∨
        ∃ p ∈ rs.filterMap parseExcelRange, b.maxRow = p.startRow ∨ b.maxRow = p.endRow) := by
  induction rs generalizing b0 with
  | nil =>
    simp only [mergeLoop] at hm
    injection hm with hb; subst hb
    exact ⟨Or.inl rfl, Or.inl rfl, Or.inl rfl, Or.inl rfl⟩
  | cons r0 rest ih =>
    simp only [mergeLoop] at hm
    cases hq : parseExcelRange r0 with
    | none =>
      rw [hq] at hm
      have h := ih b0 hm
      simp only [List.filterMap_cons, hq]
      exact h
    | some q =>
      rw [hq] at hm
      have h := ih (extendBounds (some b0) q) hm
      simp only [List.filterMap_cons, hq]
      refine ⟨?_, ?_, ?_, ?_⟩
      · rcases h.1 with he | ⟨p, hp, hor⟩
        · simp only [extendBounds] at he
          rcases Nat.lt_or_ge b0.minCol (min q.startCol q.endCol) with hc | hc
          · left; omega
          · right
            refine ⟨q, List.mem_cons_self _ _, ?_⟩
            rcases Nat.le_total q.startCol q.endCol with hq2 | hq2 <;> omega
        · exact Or.inr ⟨p, List.mem_cons_of_mem _ hp, hor⟩
      · rcases h.2.1 with he | ⟨p, hp, hor⟩
        · simp only [extendBounds] at he
          rcases Nat.lt_or_ge (max q.startCol q.endCol) b0.maxCol with hc | hc
          · left; omega
          · right
            refine ⟨q, List.mem_cons_self _ _, ?_⟩
            rcases Nat.le_total q.startCol q.endCol with hq2 | hq2 <;> omega
        · exact Or.inr ⟨p, List.mem_cons_of_mem _ hp, hor⟩
      · rcases h.2.2.1 with he | ⟨p, hp, hor⟩
        · simp only [extendBounds] at he
          rcases Nat.lt_or_ge b0.minRow (min q.startRow q.endRow) with hc | hc
          · left; omega
          · right
            refine ⟨q, List.mem_cons_self _ _, ?_⟩
            rcases Nat.le_total q.startRow q.endRow with hq2 | hq2 <;> omega
        · exact Or.inr ⟨p, List.mem_cons_of_mem _ hp, hor⟩
      · rcases h.2.2.2 with he | ⟨p, hp, hor⟩
        · simp only [extendBounds] at he
          rcases Nat.lt_or_ge (max q.startRow q.endRow) b0.maxRow with hc | hc
          · left; omega
          · right
            refine ⟨q, List.mem_cons_self _ _, ?_⟩
            rcases Nat.le_total q.startRow q.endRow with hq2 | hq2 <;> omega
        · exact Or.inr ⟨p, List.mem_cons_of_mem _ hp, hor⟩

theorem charOfNat_upper_ne_bang (k : Nat) (hk : k < 26) :
    Char.ofNat (65 + k) ≠ '!' := by
  interval_cases k <;> decide

theorem charOfNat_digit_ne_bang (k : Nat) (hk : k < 10) :
    Char.ofNat (48 + k) ≠ '!' := by
  interval_cases k <;> decide

theorem numToColAux_mem_ne_bang (fuel n : Nat) :
    ∀ c ∈ numToColAux fuel n, c ≠ '!' := by
  induction fuel generalizing n with
  | zero =>
    intro c hc
    cases n <;> exact absurd hc (by simp [numToColAux])
  | succ fuel ih =>
    intro c hc
    match n with
    | 0 => exact absurd hc (by simp [numToColAux])
    | n + 1 =>
      simp only [numToColAux, List.mem_append, List.mem_singleton] at hc
      rcases hc with hc | hc
      · exact ih _ c hc
      · subst hc
        exact charOfNat_upper_ne_bang _ (Nat.mod_lt _ (by omega))

theorem natToCharsAux_mem_ne_bang (fuel n : Nat) :
    ∀ c ∈ natToCharsAux fuel n, c ≠ '!' := by
  induction fuel generalizing n with
  | zero =>
    intro c hc
    simp only [natToCharsAux, List.mem_singleton] at hc
    subst hc
    exact charOfNat_digit_ne_bang _ (Nat.mod_lt _ (by omega))
  | succ fuel ih =>
    intro c hc
    simp only [natToCharsAux] at hc
    split at hc
    · rename_i hn
      simp only [List.mem_singleton] at hc
      subst hc
      exact charOfNat_digit_ne_bang _ hn
    · simp only [List.mem_append, List.mem_singleton] at hc
      rcases hc with hc | hc
      · exact ih _ c hc
      · subst hc
        exact charOfNat_digit_ne_bang _ (Nat.mod_lt _ (by omega))

theorem renderRange_no_bang (b : MergeBounds) : ∀ c ∈ renderRange b, c ≠ '!' := by
  intro c hc
  simp only [renderRange, numToCol, natToChars, List.mem_append,
    List.singleton_append, List.mem_cons, List.mem_nil_iff, or_false] at hc
  rcases hc with (((hc | hc) | hc) | hc) | hc
  · exact numToColAux_mem_ne_bang _ _ c hc
  · exact natToCharsAux_mem_ne_bang _ _ c hc
  · subst hc; decide
  · exact numToColAux_mem_ne_bang _ _ c hc
  · exact natToCharsAux_mem_ne_bang _ _ c hc

/-- C5: for a non-empty list of qualified chart formula references that all
parse, the merged data range is the rendered minimal bounding rectangle —
it covers every parsed reference, each of its four sides is attained by
one of them, and it contains no sheet qualifier (no `!`).  In particular
`["Sheet1!$A$1:$A$6", "Sheet1!$B$1:$D$6"]` yields `"A1:D6"`. -/
theorem c5_merge_chart_data_ranges (ranges : List (List Char))
    (hne : ranges ≠ [])
    (hall : ∀ r ∈ ranges, (parseExcelRange r).isSome) :
    (∃ b : MergeBounds,
      mergeChartDataRanges ranges = renderRange b ∧
      (∀ p ∈ ranges.filterMap parseExcelRange, coversP b p) ∧
      attainedIn b (ranges.filterMap parseExcelRange) ∧
      (∀ c ∈ mergeChartDataRanges ranges, c ≠ '!')) ∧
    mergeChartDataRanges
        ["Sheet1!$A$1:$A$6".toList, "Sheet1!$B$1:$D$6".toList]
      = "A1:D6".toList := by
  refine ⟨?_, by decide⟩
  match ranges, hne with
  | r0 :: rest, _ =>
    have h0 := hall r0 (List.mem_cons_self _ _)
    cases hp0 : parseExcelRange r0 with
    | none => rw [hp0] at h0; exact absurd h0 (by simp)
    | some p0 =>
      have hloop : mergeLoop (r0 :: rest) none
          = mergeLoop rest (some (extendBounds none p0)) := by
        simp only [mergeLoop, hp0]
      obtain ⟨b, hb, _, _, _, _⟩ := mergeLoop_grow rest (extendBounds none p0)
      have hmerge : mergeChartDataRanges (r0 :: rest) = renderRange b := by
        simp only [mergeChartDataRanges, List.isEmpty_cons, Bool.false_eq_true,
          if_false, hloop, hb]
      refine ⟨b, hmerge, ?_, ?_, ?_⟩
      · intro p hp
        rcases List.mem_filterMap.mp hp with ⟨r, hr, hpr⟩
        exact mergeLoop_cover (r0 :: rest) none b (hloop.trans hb) r hr p hpr
      · have hat := mergeLoop_attain_some rest (extendBounds none p0) b hb
        have hmem0 : p0 ∈ (r0 :: rest).filterMap parseExcelRange := by
          simp only [List.filterMap_cons, hp0]
          exact List.mem_cons_self _ _
        have hrest : ∀ p, p ∈ rest.filterMap parseExcelRange →
            p ∈ (r0 :: rest).filterMap parseExcelRange := by
          intro p hp
          simp only [List.filterMap_cons, hp0]
          exact List.mem_cons_of_mem _ hp
        simp only [extendBounds] at hat
        refine ⟨?_, ?_, ?_, ?_⟩
        · rcases hat.1 with he | ⟨p, hp, hor⟩
          · exact ⟨p0, hmem0, by
              rcases Nat.le_total p0.startCol p0.endCol with h | h <;> omega⟩
          · exact ⟨p, hrest p hp, hor⟩
        · rcases hat.2.1 with he | ⟨p, hp, hor⟩
          · exact ⟨p0, hmem0, by
              rcases Nat.le_total p0.startCol p0.endCol with h | h <;> omega⟩
          · exact ⟨p, hrest p hp, hor⟩
        · rcases hat.2.2.1 with he | ⟨p, hp, hor⟩
          · exact ⟨p0, hmem0, by
              rcases Nat.le_total p0.startRow p0.endRow with h | h <;> omega⟩
          · exact ⟨p, hrest p hp, hor⟩
        · rcases hat.2.2.2 with he | ⟨p, hp, hor⟩
          · exact ⟨p0, hmem0, by
              rcases Nat.le_total p0.startRow p0.endRow with h | h <;> omega⟩
          · exact ⟨p, hrest p hp, hor⟩
      · rw [hmerge]
        exact renderRange_no_bang b

/-- C5 witness: the two-reference example satisfies the hypotheses of
`c5_merge_chart_data_ranges`, and the merged result is `"A1:D6"`. -/
theorem c5_merge_chart_data_ranges_witness :
    mergeChartDataRanges
        ["Sheet1!$A$1:$A$6".toList, "Sheet1!$B$1:$D$6".toList]
      = "A1:D6".toList :=
  (c5_merge_chart_data_ranges
    ["Sheet1!$A$1:$A$6".toList, "Sheet1!$B$1:$D$6".toList]
    (by decide) (by decide)).2

/-! ## Cell emission and merge-border propagation
(`importExcelWithImages`, src/fileImport.ts:1341-1574 and 1605-1674)

The per-cell callback of `worksheet.eachRow`/`row.eachCell` and the
merge-border pass are embedded over an abstract source-cell record.  The
value resolvers `getCellValue`/`getOriginalCellValue`, the style converter
`convertCellStyle`, the type classifier `getCellType`, the border converter
`convertSingleBorder` and the `DISPIMG` formula probe are black boxes at
the cited lines (they live elsewhere in the file), so their *results* are
inputs of the embedding: the theorems hold for every possible behaviour of
those helpers.  `α` is the type of ExcelJS border descriptors, `β` the type
of converted (Univer) border values; rich-text and hyperlink payloads are
opaque (`Unit`) because only their presence matters here. -/

structure UBorders (β : Type) where
  t : Option β := none
  b : Option β := none
  l : Option β := none
  r : Option β := none
deriving DecidableEq

structure UStyle (β : Type) where
  bd : Option (UBorders β) := none
  /-- the other style keys produced by `convertCellStyle`, abstracted -/
  rest : List (String × String) := []
deriving DecidableEq

/-- JavaScript values as they flow through the cell-value logic.  `vNaN`
stands for any number failing `!isNaN(x) && isFinite(x)`. -/
inductive JSVal
  | vNull
  | vUndefined
  | vStr (s : String)
  | vNum (n : Int)
  | vNaN
  | vBool (b : Bool)
deriving DecidableEq

/-- `ExcelJS.ValueType`. -/
inductive CellKind
  | nullType | mergeT | number | stringT | date | hyperlink | formula
  | sharedString | richText | boolean | errorT
deriving DecidableEq

/-- A source cell as seen by the `eachCell` callback, with the results of
the black-box helpers attached. -/
structure SourceCell (β : Type) where
  kind : CellKind
  /-- result of `getCellValue(cell)` -/
  rawValue : JSVal
  /-- result of `getOriginalCellValue(cell)` -/
  originalValue : JSVal
  /-- `cell.formula` when it is a string (`none` when absent) -/
  formula : Option String
  /-- result of `convertCellStyle(cell.style)` when `cell.style` is present
  and converts to something truthy, else `none` -/
  style : Option (UStyle β)

/-- The emitted Univer cell object; each `Option` field is a JS key that
may or may not be present. -/
structure UCell (β : Type) where
  v : Option JSVal := none
  t : Option Int := none
  f : Option String := none
  p : Option Unit := none
  link : Option Unit := none
  s : Option (UStyle β) := none
deriving DecidableEq

/-- `Object.keys(cellValue).length > 0` is the negation of this. -/
def UCell.isEmptyCell {β : Type} (u : UCell β) : Bool :=
  u.v.isNone && u.t.isNone && u.f.isNone && u.p.isNone &&
    u.link.isNone && u.s.isNone

/-- Lines 1437-1466: a raw value that is a non-finite number or a string
containing `"NaN"` is replaced by the original-value fallback. -/
def nanGuard (raw orig : JSVal) : JSVal :=
  if raw = .vNull || raw = .vUndefined || raw = .vStr "" then raw
  else
    match raw with
    | .vNaN => orig
    | .vStr s => if s = "NaN" || includesStr s "NaN" then orig else raw
    | _ => raw

/-- `hasValue`: `rawValue !== null && rawValue !== undefined && rawValue !== ''`. -/
def jsHasValue (v : JSVal) : Bool :=
  !(v = .vNull || v = .vUndefined || v = .vStr "")

/-- Truthiness of `cell.formula` (a missing or empty string is falsy). -/
def formulaTruthy (f : Option String) : Bool :=
  match f with
  | some s => !(s = "")
  | none => false

/-- Lines 1528-1533: `if (!formulaText.startsWith('=')) formulaText = '=' + formulaText`. -/
def normalizeFormula (ftxt : String) : String :=
  match ftxt.toList with
  | '=' :: _ => ftxt
  | _ => "=" ++ ftxt

/-- `if (cellType !== null && hasValue) cellValue.t = cellType`. -/
def stepType {β : Type} (ct : Option Int) (hasValue : Bool) (u : UCell β) : UCell β :=
  if ct.isSome && hasValue then { u with t := ct } else u

/-- Lines 1510-1545, specialised to string formulas: when the cell is a
formula cell with truthy formula text, set `f` to the normalized formula,
and (re-)set `v` to the cached result when it is not null/undefined. -/
def stepFormula {β : Type} (kind : CellKind) (formula : Option String)
    (raw : JSVal) (u : UCell β) : UCell β :=
  match kind, formula with
  | .formula, some ftxt =>
    if ftxt = "" then u
    else if raw = .vNull || raw = .vUndefined then
      { u with f := some (normalizeFormula ftxt) }
    else
      { u with f := some (normalizeFormula ftxt), v := some raw }
  | _, _ => u

def stepRich {β : Type} (kind : CellKind) (u : UCell β) : UCell β :=
  if kind = .richText then { u with p := some () } else u

def stepLink {β : Type} (kind : CellKind) (u : UCell β) : UCell β :=
  if kind = .hyperlink then { u with link := some () } else u

def stepStyle {β : Type} (style : Option (UStyle β)) (u : UCell β) : UCell β :=
  match style with
  | some st => { u with s := some st }
  | none => u

/-- The `cellValue` object assembled by lines 1495-1568, in assignment
order: `v`, `t`, formula handling, rich text, hyperlink, style. -/
def emitCell {β : Type} (ct : Option Int) (c : SourceCell β) (raw : JSVal) :
    UCell β :=
  stepStyle c.style
    (stepLink c.kind
      (stepRich c.kind
        (stepFormula c.kind c.formula raw
          (stepType ct (jsHasValue raw)
            (if jsHasValue raw then { v := some raw } else {})))))

/-- The whole `eachCell` callback body, lines 1341-1574: `none` means the
cell is skipped (no `cellData` entry).  `isDispImg` is the result of the
`DISPIMG` regex probe on the formula text; both the found-image and the
image-missing branches skip normal cell emission. -/
def processCell {β : Type} (isDispImg : String → Bool) (ct : Option Int)
    (c : SourceCell β) : Option (UCell β) :=
  if c.kind = .nullType then
    match c.style with
    | some st => some { s := some st }
    | none => none
  else if c.kind = .formula && formulaTruthy c.formula &&
      isDispImg (c.formula.getD "") then
    none
  else if !jsHasValue (nanGuard c.rawValue c.originalValue) &&
      !(c.kind = .formula && formulaTruthy c.formula) then
    none
  else if (emitCell ct c (nanGuard c.rawValue c.originalValue)).isEmptyCell then
    none
  else
    some (emitCell ct c (nanGuard c.rawValue c.originalValue))

/-- The sparse `cellData` map, `row -> column -> cell`. -/
def CellData (β : Type) : Type := Nat → Nat → Option (UCell β)

def emptyCellData {β : Type} : CellData β := fun _ _ => none

def insertCell {β : Type} (cd : CellData β) (row col : Nat) (u : UCell β) :
    CellData β :=
  fun r' c' => if r' = row ∧ c' = col then some u else cd r' c'

/-- One worksheet cell visited by the loop, with the result of
`getCellType(cell, rawValue)` attached. -/
structure CellEntry (β : Type) where
  row : Nat
  col : Nat
  cell : SourceCell β
  ct : Option Int

/-- The `eachRow`/`eachCell` double loop over the populated cells. -/
def processCells {β : Type} (isDispImg : String → Bool)
    (entries : List (CellEntry β)) (cd : CellData β) : CellData β :=
  entries.foldl
    (fun cd e =>
      match processCell isDispImg e.ct e.cell with
      | none => cd
      | some u => insertCell cd e.row e.col u)
    cd

/-! ### Merge-border propagation (lines 1605-1674) -/

structure MergeRegion where
  startRow : Nat
  endRow : Nat
  startColumn : Nat
  endColumn : Nat

/-- `masterCell.style.border` in ExcelJS form. -/
structure JSBorders (α : Type) where
  top : Option α := none
  bottom : Option α := none
  left : Option α := none
  right : Option α := none

inductive Edge | t | b | l | r
deriving DecidableEq

def setEdge {β : Type} (bd : UBorders β) (e : Edge) (x : β) : UBorders β :=
  match e with
  | .t => { bd with t := some x }
  | .b => { bd with b := some x }
  | .l => { bd with l := some x }
  | .r => { bd with r := some x }

def getEdge {β : Type} (bd : UBorders β) (e : Edge) : Option β :=
  match e with
  | .t => bd.t
  | .b => bd.b
  | .l => bd.l
  | .r => bd.r

/-- The inner body of each propagation loop:
`if (!cellData[r]) ...; if (!cellData[r][c]) ...; if (!s) ...; if (!bd) ...;`
then assign the edge. -/
def setCellEdge {β : Type} (cd : CellData β) (row col : Nat) (e : Edge) (x : β) :
    CellData β :=
  let cell := (cd row col).getD {}
  let st := cell.s.getD {}
  let bd := st.bd.getD {}
  insertCell cd row col { cell with s := some { st with bd := some (setEdge bd e x) } }

def applyEdgeLoop {β : Type} (cd : CellData β) (cells : List (Nat × Nat))
    (e : Edge) (x : β) : CellData β :=
  cells.foldl (fun cd rc => setCellEdge cd rc.1 rc.2 e x) cd

/-- `for (let col = startColumn; col <= endColumn; col++)` at a fixed row. -/
def rowCells (row sc ec : Nat) : List (Nat × Nat) :=
  (List.range (ec + 1 - sc)).map fun i => (row, sc + i)

/-- `for (let row = startRow; row <= endRow; row++)` at a fixed column. -/
def colCells (col sr er : Nat) : List (Nat × Nat) :=
  (List.range (er + 1 - sr)).map fun i => (sr + i, col)

/-- One `if (border.edge) { for (...) {...} }` block: run the loop only when
the anchor border has this edge. -/
def applyEdgeOpt {α β : Type} (conv : α → β) (cells : List (Nat × Nat))
    (e : Edge) (o : Option α) (cd : CellData β) : CellData β :=
  match o with
  | some x => applyEdgeLoop cd cells e (conv x)
  | none => cd

/-- Lines 1625-1673: the four edge loops in source order (top, bottom,
left, right), guarded by `masterCell.style && masterCell.style.border`
(`border = none` models that guard failing) and by the presence of each
edge on the anchor border.  `conv` is `convertSingleBorder`. -/
def applyMergeBorders {α β : Type} (conv : α → β) (m : MergeRegion)
    (border : Option (JSBorders α)) (cd : CellData β) : CellData β :=
  match border with
  | none => cd
  | some bd =>
    applyEdgeOpt conv (colCells m.endColumn m.startRow m.endRow) .r bd.right
      (applyEdgeOpt conv (colCells m.startColumn m.startRow m.endRow) .l bd.left
        (applyEdgeOpt conv (rowCells m.endRow m.startColumn m.endColumn) .b bd.bottom
          (applyEdgeOpt conv (rowCells m.startRow m.startColumn m.endColumn) .t bd.top cd)))

/-- The `worksheet.model.merges.forEach` loop (each merge comes with the
anchor cell's border, or `none`). -/
def processMerges {α β : Type} (conv : α → β)
    (merges : List (MergeRegion × Option (JSBorders α))) (cd : CellData β) :
    CellData β :=
  merges.foldl (fun cd mb => applyMergeBorders conv mb.1 mb.2 cd) cd

/-- The final `cellData` of one sheet: the cell loop followed by the merge
loop. -/
def buildCellData {α β : Type} (isDispImg : String → Bool) (conv : α → β)
    (entries : List (CellEntry β))
    (merges : List (MergeRegion × Option (JSBorders α))) : CellData β :=
  processMerges conv merges (processCells isDispImg entries emptyCellData)

/-- The resolved border of edge `e` on a `cellData` slot. -/
def edgeOf {β : Type} (u? : Option (UCell β)) (e : Edge) : Option β :=
  match u? with
  | none => none
  | some u =>
    match u.s with
    | none => none
    | some st =>
      match st.bd with
      | none => none
      | some bd => getEdge bd e

/-! ### C9: every emitted cell carries a value, a formula, or a style -/

def cellOK {β : Type} (u : UCell β) : Prop :=
  u.v.isSome ∨ u.f.isSome ∨ u.s.isSome

def cdOK {β : Type} (cd : CellData β) : Prop :=
  ∀ r c u, cd r c = some u → cellOK u

theorem stepType_v {β : Type} (ct : Option Int) (hv : Bool) (u : UCell β) :
    (stepType ct hv u).v = u.v := by
  unfold stepType; split <;> rfl

theorem stepRich_v {β : Type} (k : CellKind) (u : UCell β) :
    (stepRich k u).v = u.v := by
  unfold stepRich; split <;> rfl

theorem stepLink_v {β : Type} (k : CellKind) (u : UCell β) :
    (stepLink k u).v = u.v := by
  unfold stepLink; split <;> rfl

theorem stepStyle_v {β : Type} (st : Option (UStyle β)) (u : UCell β) :
    (stepStyle st u).v = u.v := by
  unfold stepStyle; cases st <;> rfl

theorem stepRich_f {β : Type} (k : CellKind) (u : UCell β) :
    (stepRich k u).f = u.f := by
  unfold stepRich; split <;> rfl

theorem stepLink_f {β : Type} (k : CellKind) (u : UCell β) :
    (stepLink k u).f = u.f := by
  unfold stepLink; split <;> rfl

theorem stepStyle_f {β : Type} (st : Option (UStyle β)) (u : UCell β) :
    (stepStyle st u).f = u.f := by
  unfold stepStyle; cases st <;> rfl

theorem stepFormula_v_isSome {β : Type} (k : CellKind) (f : Option String)
    (raw : JSVal) (u : UCell β) (h : u.v.isSome) :
    (stepFormula k f raw u).v.isSome := by
  cases k <;> cases f <;> try exact h
  rename_i ftxt
  dsimp only [stepFormula]
  split
  · exact h
  · split
    · exact h
    · simp

theorem stepFormula_f_set {β : Type} (raw : JSVal) (u : UCell β)
    (ftxt : String) (hf : ¬ ftxt = "") :
    (stepFormula .formula (some ftxt) raw u).f
      = some (normalizeFormula ftxt) := by
  dsimp only [stepFormula]
  rw [if_neg hf]
  split <;> rfl

theorem emitCell_ok {β : Type} (ct : Option Int) (c : SourceCell β) (raw : JSVal)
    (hcase : jsHasValue raw = true ∨
      (c.kind = .formula ∧ formulaTruthy c.formula = true)) :
    cellOK (emitCell ct c raw) := by
  rcases hcase with hv | ⟨hk, hf⟩
  · left
    unfold emitCell
    rw [stepStyle_v, stepLink_v, stepRich_v]
    apply stepFormula_v_isSome
    rw [stepType_v, if_pos hv]
    rfl
  · right; left
    cases hft : c.formula with
    | none => rw [hft] at hf; exact absurd hf (by simp [formulaTruthy])
    | some ftxt =>
      have hne : ¬ ftxt = "" := by
        rw [hft] at hf
        simp only [formulaTruthy, Bool.not_eq_true'] at hf
        intro he
        rw [he] at hf
        simp at hf
      unfold emitCell
      rw [stepStyle_f, stepLink_f, stepRich_f, hk, hft,
        stepFormula_f_set _ _ _ hne]
      rfl

theorem processCell_ok {β : Type} (d : String → Bool) (ct : Option Int)
    (c : SourceCell β) (u : UCell β) (h : processCell d ct c = some u) :
    cellOK u := by
  unfold processCell at h
  split at h
  · cases hs : c.style with
    | none => rw [hs] at h; exact Option.noConfusion h
    | some st =>
      rw [hs] at h
      injection h with hu
      subst hu
      right; right; rfl
  · split at h
    · exact Option.noConfusion h
    · split at h
      · exact Option.noConfusion h
      · split at h
        · exact Option.noConfusion h
        · rename_i hguard hempty
          injection h with hu
          subst hu
          apply emitCell_ok
          by_cases hv : jsHasValue (nanGuard c.rawValue c.originalValue) = true
          · exact Or.inl hv
          · right
            simp only [Bool.not_eq_true] at hv
            have hb : (decide (c.kind = CellKind.formula) &&
                formulaTruthy c.formula) = true := by
              rcases Bool.eq_false_or_eq_true
                  (decide (c.kind = CellKind.formula) && formulaTruthy c.formula)
                with hx | hx
              · exact hx
              · exact absurd (by simp [hv, hx]) hguard
            simp only [Bool.and_eq_true, decide_eq_true_eq] at hb
            exact ⟨hb.1, hb.2⟩

theorem insertCell_cdOK {β : Type} (cd : CellData β) (row col : Nat)
    (u : UCell β) (hcd : cdOK cd) (hu : cellOK u) :
    cdOK (insertCell cd row col u) := by
  intro r c u' h
  unfold insertCell at h
  split at h
  · injection h with hu'; subst hu'; exact hu
  · exact hcd r c u' h

theorem processCells_cdOK {β : Type} (d : String → Bool)
    (entries : List (CellEntry β)) (cd : CellData β) (hcd : cdOK cd) :
    cdOK (processCells d entries cd) := by
  induction entries generalizing cd with
  | nil => exact hcd
  | cons e rest ih =>
    show cdOK (processCells d rest
      (match processCell d e.ct e.cell with
       | none => cd
       | some u => insertCell cd e.row e.col u))
    apply ih
    intro r c u h
    cases hp : processCell d e.ct e.cell with
    | none =>
      rw [hp] at h
      exact hcd r c u h
    | some u0 =>
      rw [hp] at h
      exact insertCell_cdOK cd e.row e.col u0 hcd
        (processCell_ok d e.ct e.cell u0 hp) r c u h

theorem setCellEdge_cdOK {β : Type} (cd : CellData β) (row col : Nat)
    (e : Edge) (x : β) (hcd : cdOK cd) : cdOK (setCellEdge cd row col e x) := by
  intro r c u h
  unfold setCellEdge insertCell at h
  split at h
  · injection h with hu
    subst hu
    right; right; rfl
  · exact hcd r c u h

theorem applyEdgeLoop_cdOK {β : Type} (cd : CellData β)
    (cells : List (Nat × Nat)) (e : Edge) (x : β) (hcd : cdOK cd) :
    cdOK (applyEdgeLoop cd cells e x) := by
  induction cells generalizing cd with
  | nil => exact hcd
  | cons a rest ih =>
    exact ih _ (setCellEdge_cdOK cd a.1 a.2 e x hcd)

theorem applyEdgeOpt_cdOK {α β : Type} (conv : α → β)
    (cells : List (Nat × Nat)) (e : Edge) (o : Option α) (cd : CellData β)
    (hcd : cdOK cd) : cdOK (applyEdgeOpt conv cells e o cd) := by
  cases o with
  | none => exact hcd
  | some x => exact applyEdgeLoop_cdOK cd cells e (conv x) hcd

theorem applyMergeBorders_cdOK {α β : Type} (conv : α → β) (m : MergeRegion)
    (border : Option (JSBorders α)) (cd : CellData β) (hcd : cdOK cd) :
    cdOK (applyMergeBorders conv m border cd) := by
  cases border with
  | none => exact hcd
  | some bd =>
    exact applyEdgeOpt_cdOK _ _ _ _ _
      (applyEdgeOpt_cdOK _ _ _ _ _
        (applyEdgeOpt_cdOK _ _ _ _ _
          (applyEdgeOpt_cdOK _ _ _ _ _ hcd)))

theorem processMerges_cdOK {α β : Type} (conv : α → β)
    (merges : List (MergeRegion × Option (JSBorders α))) (cd : CellData β)
    (hcd : cdOK cd) : cdOK (processMerges conv merges cd) := by
  induction merges generalizing cd with
  | nil => exact hcd
  | cons mb rest ih =>
    exact ih _ (applyMergeBorders_cdOK conv mb.1 mb.2 cd hcd)

/-- C9: in the `cellData` produced by the cell loop followed by the
merge-border pass, every present cell record carries at least one of a
value (`v`), a formula (`f`), or a style (`s`) — for every behaviour of
the black-box helpers and every input cell/merge list. -/
theorem c9_cell_data_sparsity {α β : Type} (isDispImg : String → Bool)
    (conv : α → β) (entries : List (CellEntry β))
    (merges : List (MergeRegion × Option (JSBorders α))) :
    ∀ r c u, buildCellData isDispImg conv entries merges r c = some u →
      u.v.isSome ∨ u.f.isSome ∨ u.s.isSome := by
  have h : cdOK (buildCellData isDispImg conv entries merges) :=
    processMerges_cdOK conv merges _
      (processCells_cdOK isDispImg entries emptyCellData
        (fun _ _ _ h => Option.noConfusion h))
  exact h

/-- C9 witness: a one-cell sheet; the emitted record at `(0, 0)` carries a
value. -/
theorem c9_cell_data_sparsity_witness :
    ({ v := some (JSVal.vNum 5), t := some 2 } : UCell Unit).v.isSome ∨
    ({ v := some (JSVal.vNum 5), t := some 2 } : UCell Unit).f.isSome ∨
    ({ v := some (JSVal.vNum 5), t := some 2 } : UCell Unit).s.isSome :=
  c9_cell_data_sparsity (α := Unit) (β := Unit) (fun _ => false) (fun x => x)
    [⟨0, 0, ⟨.number, .vNum 5, .vNull, none, none⟩, some 2⟩] [] 0 0
    { v := some (JSVal.vNum 5), t := some 2 } (by decide)

/-! ### C7: merge-border propagation to the region perimeter -/

theorem getEdge_setEdge_same {β : Type} (bd : UBorders β) (e : Edge) (x : β) :
    getEdge (setEdge bd e x) e = some x := by
  cases e <;> rfl

theorem getEdge_setEdge_other {β : Type} (bd : UBorders β) (e e' : Edge)
    (x : β) (h : e ≠ e') : getEdge (setEdge bd e' x) e = getEdge bd e := by
  cases e <;> cases e' <;> first | rfl | exact absurd rfl h

theorem getEdge_empty {β : Type} (e : Edge) :
    getEdge ({} : UBorders β) e = none := by
  cases e <;> rfl

theorem setCellEdge_edgeOf_same {β : Type} (cd : CellData β) (row col : Nat)
    (e : Edge) (x : β) :
    edgeOf (setCellEdge cd row col e x row col) e = some x := by
  unfold setCellEdge insertCell edgeOf
  simp only [and_self, if_pos]
  exact getEdge_setEdge_same _ e x

theorem setCellEdge_other_cell {β : Type} (cd : CellData β) (row col : Nat)
    (e : Edge) (x : β) (r c : Nat) (h : ¬(r = row ∧ c = col)) :
    setCellEdge cd row col e x r c = cd r c := by
  unfold setCellEdge insertCell
  simp only [if_neg h]

theorem setCellEdge_edgeOf_preserve {β : Type} (cd : CellData β)
    (row col : Nat) (e' : Edge) (x : β) (r c : Nat) (e : Edge) (h : e ≠ e') :
    edgeOf (setCellEdge cd row col e' x r c) e = edgeOf (cd r c) e := by
  by_cases hrc : r = row ∧ c = col
  · obtain ⟨hr, hc⟩ := hrc
    subst hr; subst hc
    unfold setCellEdge insertCell edgeOf
    simp only [and_self, if_pos]
    rw [getEdge_setEdge_other _ _ _ _ h]
    cases hu : cd r c with
    | none => simp [getEdge_empty]
    | some u =>
      cases hs : u.s with
      | none => simp [hs, getEdge_empty]
      | some st =>
        cases hb : st.bd with
        | none => simp [hs, hb, getEdge_empty]
        | some bd => simp [hs, hb]
  · rw [setCellEdge_other_cell cd row col e' x r c hrc]

theorem applyEdgeLoop_not_mem {β : Type} (cells : List (Nat × Nat))
    (cd : CellData β) (e : Edge) (x : β) (r c : Nat)
    (h : (r, c) ∉ cells) : applyEdgeLoop cd cells e x r c = cd r c := by
  induction cells generalizing cd with
  | nil => rfl
  | cons a rest ih =>
    have hne : ¬(r = a.1 ∧ c = a.2) := by
      intro ⟨h1, h2⟩
      exact h (List.mem_cons.mpr (Or.inl (Prod.ext_iff.mpr ⟨h1, h2⟩)))
    have hrest : (r, c) ∉ rest := fun hm => h (List.mem_cons_of_mem _ hm)
    show applyEdgeLoop (setCellEdge cd a.1 a.2 e x) rest e x r c = cd r c
    rw [ih _ hrest, setCellEdge_other_cell _ _ _ _ _ _ _ hne]

theorem applyEdgeLoop_mem {β : Type} (cells : List (Nat × Nat))
    (cd : CellData β) (e : Edge) (x : β) (r c : Nat) (h : (r, c) ∈ cells) :
    edgeOf (applyEdgeLoop cd cells e x r c) e = some x := by
  induction cells generalizing cd with
  | nil => exact absurd h (List.not_mem_nil _)
  | cons a rest ih =>
    show edgeOf (applyEdgeLoop (setCellEdge cd a.1 a.2 e x) rest e x r c) e
      = some x
    by_cases hrest : (r, c) ∈ rest
    · exact ih _ hrest
    · rcases List.mem_cons.mp h with heq | hmem
      · have h1 : a.1 = r := by rw [← heq]
        have h2 : a.2 = c := by rw [← heq]
        rw [applyEdgeLoop_not_mem rest _ e x r c hrest, h1, h2]
        exact setCellEdge_edgeOf_same cd r c e x
      · exact absurd hmem hrest

theorem applyEdgeLoop_edgeOf_preserve {β : Type} (cells : List (Nat × Nat))
    (cd : CellData β) (e' : Edge) (x : β) (r c : Nat) (e : Edge) (h : e ≠ e') :
    edgeOf (applyEdgeLoop cd cells e' x r c) e = edgeOf (cd r c) e := by
  induction cells generalizing cd with
  | nil => rfl
  | cons a rest ih =>
    show edgeOf (applyEdgeLoop (setCellEdge cd a.1 a.2 e' x) rest e' x r c) e
      = edgeOf (cd r c) e
    rw [ih _, setCellEdge_edgeOf_preserve cd a.1 a.2 e' x r c e h]

theorem applyEdgeOpt_edgeOf_preserve {α β : Type} (conv : α → β)
    (cells : List (Nat × Nat)) (e' : Edge) (o : Option α) (cd : CellData β)
    (r c : Nat) (e : Edge) (h : e ≠ e') :
    edgeOf (applyEdgeOpt conv cells e' o cd r c) e = edgeOf (cd r c) e := by
  cases o with
  | none => rfl
  | some x => exact applyEdgeLoop_edgeOf_preserve cells cd e' (conv x) r c e h

theorem rowCells_mem (row sc ec c : Nat) (h1 : sc ≤ c) (h2 : c ≤ ec) :
    (row, c) ∈ rowCells row sc ec := by
  unfold rowCells
  simp only [List.mem_map, List.mem_range, Prod.mk.injEq, true_and]
  exact ⟨c - sc, by omega, by omega⟩

theorem colCells_mem (col sr er r : Nat) (h1 : sr ≤ r) (h2 : r ≤ er) :
    (r, col) ∈ colCells col sr er := by
  unfold colCells
  simp only [List.mem_map, List.mem_range, Prod.mk.injEq, and_true]
  exact ⟨r - sr, by omega, by omega⟩

/-- C7: for a merge region whose anchor (top-left) cell has a border, each
present edge of that border is propagated to the corresponding outer edge
of every cell on the region's perimeter: top to every cell of the top row,
bottom to every cell of the bottom row, left to every cell of the leftmost
column, right to every cell of the rightmost column. -/
theorem c7_merge_border_propagation {α β : Type} (conv : α → β)
    (m : MergeRegion) (bd : JSBorders α) (cd : CellData β) :
    (∀ x, bd.top = some x → ∀ c, m.startColumn ≤ c → c ≤ m.endColumn →
      edgeOf (applyMergeBorders conv m (some bd) cd m.startRow c) .t
        = some (conv x)) ∧
    (∀ x, bd.bottom = some x → ∀ c, m.startColumn ≤ c → c ≤ m.endColumn →
      edgeOf (applyMergeBorders conv m (some bd) cd m.endRow c) .b
        = some (conv x)) ∧
    (∀ x, bd.left = some x → ∀ r, m.startRow ≤ r → r ≤ m.endRow →
      edgeOf (applyMergeBorders conv m (some bd) cd r m.startColumn) .l
        = some (conv x)) ∧
    (∀ x, bd.right = some x → ∀ r, m.startRow ≤ r → r ≤ m.endRow →
      edgeOf (applyMergeBorders conv m (some bd) cd r m.endColumn) .r
        = some (conv x)) := by
  refine ⟨?_, ?_, ?_, ?_⟩
  · intro x hx c h1 h2
    show edgeOf (applyEdgeOpt conv _ .r bd.right
      (applyEdgeOpt conv _ .l bd.left
        (applyEdgeOpt conv _ .b bd.bottom
          (applyEdgeOpt conv _ .t bd.top cd))) m.startRow c) .t = some (conv x)
    rw [applyEdgeOpt_edgeOf_preserve _ _ _ _ _ _ _ _ (by decide),
      applyEdgeOpt_edgeOf_preserve _ _ _ _ _ _ _ _ (by decide),
      applyEdgeOpt_edgeOf_preserve _ _ _ _ _ _ _ _ (by decide), hx]
    exact applyEdgeLoop_mem _ cd .t (conv x) m.startRow c
      (rowCells_mem m.startRow m.startColumn m.endColumn c h1 h2)
  · intro x hx c h1 h2
    show edgeOf (applyEdgeOpt conv _ .r bd.right
      (applyEdgeOpt conv _ .l bd.left
        (applyEdgeOpt conv _ .b bd.bottom
          (applyEdgeOpt conv _ .t bd.top cd))) m.endRow c) .b = some (conv x)
    rw [applyEdgeOpt_edgeOf_preserve _ _ _ _ _ _ _ _ (by decide),
      applyEdgeOpt_edgeOf_preserve _ _ _ _ _ _ _ _ (by decide), hx]
    exact applyEdgeLoop_mem _ _ .b (conv x) m.endRow c
      (rowCells_mem m.endRow m.startColumn m.endColumn c h1 h2)
  · intro x hx r h1 h2
    show edgeOf (applyEdgeOpt conv _ .r bd.right
      (applyEdgeOpt conv _ .l bd.left
        (applyEdgeOpt conv _ .b bd.bottom
          (applyEdgeOpt conv _ .t bd.top cd))) r m.startColumn) .l = some (conv x)
    rw [applyEdgeOpt_edgeOf_preserve _ _ _ _ _ _ _ _ (by decide), hx]
    exact applyEdgeLoop_mem _ _ .l (conv x) r m.startColumn
      (colCells_mem m.startColumn m.startRow m.endRow r h1 h2)
  · intro x hx r h1 h2
    show edgeOf (applyEdgeOpt conv _ .r bd.right
      (applyEdgeOpt conv _ .l bd.left
        (applyEdgeOpt conv _ .b bd.bottom
          (applyEdgeOpt conv _ .t bd.top cd))) r m.endColumn) .r = some (conv x)
    rw [hx]
    exact applyEdgeLoop_mem _ _ .r (conv x) r m.endColumn
      (colCells_mem m.endColumn m.startRow m.endRow r h1 h2)

/-- C7 witness: a 2-by-2 merge at `(0,0)..(1,1)` with all four anchor
border edges present; the four perimeter corners receive the converted
edges. -/
theorem c7_merge_border_propagation_witness :
    edgeOf (applyMergeBorders (fun x : Unit => x) ⟨0, 1, 0, 1⟩
        (some ⟨some (), some (), some (), some ()⟩) emptyCellData 0 1) .t
      = some () ∧
    edgeOf (applyMergeBorders (fun x : Unit => x) ⟨0, 1, 0, 1⟩
        (some ⟨some (), some (), some (), some ()⟩) emptyCellData 1 0) .b
      = some () ∧
    edgeOf (applyMergeBorders (fun x : Unit => x) ⟨0, 1, 0, 1⟩
        (some ⟨some (), some (), some (), some ()⟩) emptyCellData 1 0) .l
      = some () ∧
    edgeOf (applyMergeBorders (fun x : Unit => x) ⟨0, 1, 0, 1⟩
        (some ⟨some (), some (), some (), some ()⟩) emptyCellData 0 1) .r
      = some () := by
  have h := c7_merge_border_propagation (fun x : Unit => x) ⟨0, 1, 0, 1⟩
    ⟨some (), some (), some (), some ()⟩ emptyCellData
  exact ⟨h.1 () rfl 1 (by decide) (by decide),
    h.2.1 () rfl 0 (by decide) (by decide),
    h.2.2.1 () rfl 1 (by decide) (by decide),
    h.2.2.2 () rfl 0 (by decide) (by decide)⟩

/-! ## Excel date engine (`dateToExcelSerial`, `excelSerialToDate`,
src/fileImport.ts:3775-3813)

Both functions delegate to the JavaScript `Date`, which implements the
proleptic Gregorian calendar over milliseconds since the Unix epoch.  The
calendar is embedded explicitly: `daysFromCivil` counts days from
0000-01-01 (the difference of two `Date.UTC` midnights divided by
`msPerDay` equals the difference of these day numbers), and
`civilFromDays` recovers the calendar date of a day number, as the `Date`
accessors do.  Day numbers before year 0 (far outside anything this
pipeline produces) are outside the model. -/

def isLeapYear (y : Nat) : Bool :=
  (y % 4 == 0 && y % 100 != 0) || y % 400 == 0

def daysInYear (y : Nat) : Nat := if isLeapYear y then 366 else 365

def daysInMonth (leap : Bool) : Nat → Nat
  | 1 => 31
  | 2 => if leap then 29 else 28
  | 3 => 31
  | 4 => 30
  | 5 => 31
  | 6 => 30
  | 7 => 31
  | 8 => 31
  | 9 => 30
  | 10 => 31
  | 11 => 30
  | 12 => 31
  | _ => 31

/-- Days in months `1 .. m-1` of a year with leap flag `leap`. -/
def monthDaysBefore (leap : Bool) : Nat → Nat
  | 0 => 0
  | 1 => 0
  | m + 2 => monthDaysBefore leap (m + 1) + daysInMonth leap (m + 1)

/-- Days in years `0 .. y-1`. -/
def yearDaysBefore : Nat → Nat
  | 0 => 0
  | y + 1 => yearDaysBefore y + daysInYear y

structure CivilDate where
  year : Nat
  month : Nat
  day : Nat
deriving DecidableEq

def validDate (d : CivilDate) : Prop :=
  1 ≤ d.month ∧ d.month ≤ 12 ∧ 1 ≤ d.day ∧
    d.day ≤ daysInMonth (isLeapYear d.year) d.month

instance (d : CivilDate) : Decidable (validDate d) := by
  unfold validDate; infer_instance

def dayOfYear (d : CivilDate) : Nat :=
  monthDaysBefore (isLeapYear d.year) d.month + (d.day - 1)

/-- Day number of a calendar date, counting from 0000-01-01 = 0. -/
def daysFromCivil (d : CivilDate) : Nat :=
  yearDaysBefore d.year + dayOfYear d

theorem daysInMonth_pos (leap : Bool) (m : Nat) : 0 < daysInMonth leap m := by
  unfold daysInMonth
  split <;> first | omega | (split <;> omega)

theorem daysInYear_pos (y : Nat) : 0 < daysInYear y := by
  unfold daysInYear
  split <;> omega

/-- Recover `(month, day)` from a day-of-year, scanning months upward. -/
def monthFromDoy (leap : Bool) (m doy : Nat) : Nat × Nat :=
  if _h : doy < daysInMonth leap m then (m, doy + 1)
  else monthFromDoy leap (m + 1) (doy - daysInMonth leap m)
termination_by doy
decreasing_by
  have hpos := daysInMonth_pos leap m
  omega

/-- Recover `(year, dayOfYear)` from a day number, scanning years upward. -/
def yearFromDays (y z : Nat) : Nat × Nat :=
  if _h : z < daysInYear y then (y, z)
  else yearFromDays (y + 1) (z - daysInYear y)
termination_by z
decreasing_by
  have hpos := daysInYear_pos y
  omega

/-- Calendar date of a day number (counting from 0000-01-01 = 0). -/
def civilFromDays (z : Nat) : CivilDate :=
  let yd := yearFromDays 0 z
  let md := monthFromDoy (isLeapYear yd.1) 1 yd.2
  ⟨yd.1, md.1, md.2⟩

/-- The fixed epoch 1899-12-30 (`Date.UTC(1899, 11, 30)`), as a day number. -/
def excelEpochDays : Nat := daysFromCivil ⟨1899, 12, 30⟩

/-- `dateToExcelSerial` (src/fileImport.ts:3775-3785):
`(Date.UTC(y, m, d) - Date.UTC(1899, 11, 30)) / msPerDay`; both timestamps
are midnight-UTC instants, so the quotient is the difference of Gregorian
day numbers. -/
def dateToExcelSerial (d : CivilDate) : Int :=
  (daysFromCivil d : Int) - (excelEpochDays : Int)

/-- `excelSerialToDate` (src/fileImport.ts:3792-3813):
`new Date(excelEpoch.getTime() + serial * msPerDay)`, with `null` for
non-finite serials (unrepresentable in this integer model) and for dates
outside the model's range (before year 0). -/
def excelSerialToDate (serial : Int) : Option CivilDate :=
  if (excelEpochDays : Int) + serial < 0 then none
  else some (civilFromDays ((excelEpochDays : Int) + serial).toNat)

theorem monthDaysBefore_succ (leap : Bool) (m : Nat) (hm : 1 ≤ m) :
    monthDaysBefore leap (m + 1) = monthDaysBefore leap m + daysInMonth leap m := by
  match m, hm with
  | m + 1, _ => rfl

theorem monthDaysBefore_mono (leap : Bool) (m0 m : Nat) (h : m0 ≤ m) :
    monthDaysBefore leap m0 ≤ monthDaysBefore leap m := by
  induction m with
  | zero =>
    have h0 : m0 = 0 := by omega
    subst h0
    exact Nat.le_refl _
  | succ m ih =>
    rcases Nat.eq_or_lt_of_le h with heq | hlt
    · exact heq ▸ Nat.le_refl _
    · have h2 := ih (by omega)
      have h3 : monthDaysBefore leap m ≤ monthDaysBefore leap (m + 1) := by
        match m with
        | 0 => exact Nat.le_refl 0
        | k + 1 =>
          rw [monthDaysBefore_succ leap (k + 1) (by omega)]
          exact Nat.le_add_right _ _
      exact Nat.le_trans h2 h3

theorem monthFromDoy_spec (leap : Bool) (d : Nat) (hd1 : 1 ≤ d) :
    ∀ k m0, 1 ≤ m0 → d ≤ daysInMonth leap (m0 + k) →
      monthFromDoy leap m0
        ((monthDaysBefore leap (m0 + k) - monthDaysBefore leap m0) + (d - 1))
        = (m0 + k, d) := by
  intro k
  induction k with
  | zero =>
    intro m0 h1 h2
    simp only [Nat.add_zero] at h2 ⊢
    rw [monthFromDoy]
    rw [dif_pos (by omega)]
    simp only [Prod.mk.injEq, true_and]
    omega
  | succ k ih =>
    intro m0 h1 h2
    have hsucc := monthDaysBefore_succ leap m0 h1
    have hmono := monthDaysBefore_mono leap (m0 + 1) (m0 + (k + 1)) (by omega)
    have harr : m0 + (k + 1) = (m0 + 1) + k := by omega
    rw [monthFromDoy]
    rw [dif_neg (by omega)]
    have harg :
        (monthDaysBefore leap (m0 + (k + 1)) - monthDaysBefore leap m0) + (d - 1)
            - daysInMonth leap m0
          = (monthDaysBefore leap ((m0 + 1) + k) - monthDaysBefore leap (m0 + 1))
            + (d - 1) := by
      rw [← harr]
      omega
    rw [harg, harr]
    exact ih (m0 + 1) (by omega) (by rw [← harr]; exact h2)

theorem yearDaysBefore_mono (y0 y : Nat) (h : y0 ≤ y) :
    yearDaysBefore y0 ≤ yearDaysBefore y := by
  induction y with
  | zero =>
    have h0 : y0 = 0 := by omega
    subst h0
    exact Nat.le_refl _
  | succ y ih =>
    rcases Nat.eq_or_lt_of_le h with heq | hlt
    · exact heq ▸ Nat.le_refl _
    · have h2 := ih (by omega)
      have h3 : yearDaysBefore (y + 1) = yearDaysBefore y + daysInYear y := rfl
      omega

theorem yearFromDays_spec (doy : Nat) :
    ∀ k y0, doy < daysInYear (y0 + k) →
      yearFromDays y0 ((yearDaysBefore (y0 + k) - yearDaysBefore y0) + doy)
        = (y0 + k, doy) := by
  intro k
  induction k with
  | zero =>
    intro y0 h
    simp only [Nat.add_zero] at h ⊢
    rw [yearFromDays]
    rw [dif_pos (by omega)]
    simp only [Prod.mk.injEq, true_and]
    omega
  | succ k ih =>
    intro y0 h
    have hsucc : yearDaysBefore (y0 + 1) = yearDaysBefore y0 + daysInYear y0 := rfl
    have hmono := yearDaysBefore_mono (y0 + 1) (y0 + (k + 1)) (by omega)
    have harr : y0 + (k + 1) = (y0 + 1) + k := by omega
    rw [yearFromDays]
    rw [dif_neg (by omega)]
    have harg :
        (yearDaysBefore (y0 + (k + 1)) - yearDaysBefore y0) + doy - daysInYear y0
          = (yearDaysBefore ((y0 + 1) + k) - yearDaysBefore (y0 + 1)) + doy := by
      rw [← harr]
      omega
    rw [harg, harr]
    exact ih (y0 + 1) (by rw [← harr]; exact h)

theorem monthDaysBefore_13 (y : Nat) :
    monthDaysBefore (isLeapYear y) 13 = daysInYear y := by
  unfold daysInYear
  cases h : isLeapYear y <;> simp [h] <;> rfl

theorem dayOfYear_lt (d : CivilDate) (hv : validDate d) :
    dayOfYear d < daysInYear d.year := by
  obtain ⟨h1, h2, h3, h4⟩ := hv
  unfold dayOfYear
  have hsucc := monthDaysBefore_succ (isLeapYear d.year) d.month h1
  have hmono := monthDaysBefore_mono (isLeapYear d.year) (d.month + 1) 13 (by omega)
  have h13 := monthDaysBefore_13 d.year
  omega

/-- Inverse property of the embedded calendar: recovering the calendar
date of the day number of any valid date gives that date back. -/
theorem civilFromDays_daysFromCivil (d : CivilDate) (hv : validDate d) :
    civilFromDays (daysFromCivil d) = d := by
  obtain ⟨h1, h2, h3, h4⟩ := hv
  have hdoy : dayOfYear d < daysInYear d.year := dayOfYear_lt d ⟨h1, h2, h3, h4⟩
  have hyear : yearFromDays 0 (daysFromCivil d) = (d.year, dayOfYear d) := by
    have h := yearFromDays_spec (dayOfYear d) d.year 0 (by simpa using hdoy)
    simpa [daysFromCivil] using h
  have hmonth : monthFromDoy (isLeapYear d.year) 1 (dayOfYear d)
      = (d.month, d.day) := by
    have h := monthFromDoy_spec (isLeapYear d.year) d.day h3 (d.month - 1) 1
      (by omega) (by
        have hm : 1 + (d.month - 1) = d.month := by omega
        rw [hm]; exact h4)
    have hm : 1 + (d.month - 1) = d.month := by omega
    rw [hm] at h
    have harg : (monthDaysBefore (isLeapYear d.year) d.month
        - monthDaysBefore (isLeapYear d.year) 1) + (d.day - 1) = dayOfYear d := by
      unfold dayOfYear
      have : monthDaysBefore (isLeapYear d.year) 1 = 0 := rfl
      omega
    rw [harg] at h
    exact h
  unfold civilFromDays
  rw [hyear]
  simp only
  rw [hmonth]

/-- C2: for every calendar date between 1900-01-01 and 2100-12-31,
`excelSerialToDate (dateToExcelSerial d)` returns a non-null date whose
calendar components equal those of `d`. -/
theorem c2_excel_serial_roundtrip (d : CivilDate) (hv : validDate d)
    (_h1 : 1900 ≤ d.year) (_h2 : d.year ≤ 2100) :
    excelSerialToDate (dateToExcelSerial d) = some d := by
  unfold excelSerialToDate dateToExcelSerial
  have hz : (excelEpochDays : Int) + ((daysFromCivil d : Int) - excelEpochDays)
      = (daysFromCivil d : Int) := by ring
  rw [hz]
  rw [if_neg (by omega : ¬ ((daysFromCivil d : Nat) : Int) < 0)]
  rw [Int.toNat_natCast]
  exact congrArg some (civilFromDays_daysFromCivil d hv)

/-- C2 witness: the leap day 2024-02-29 round-trips. -/
theorem c2_excel_serial_roundtrip_witness :
    excelSerialToDate (dateToExcelSerial ⟨2024, 2, 29⟩) = some ⟨2024, 2, 29⟩ :=
  c2_excel_serial_roundtrip ⟨2024, 2, 29⟩ (by decide) (by decide) (by decide)

/-! ## Date formatting and parsing (`formatDateByPattern`,
`parseDateString`, src/fileImport.ts:3820-4057)

JS dates are modelled as records of the accessor results
(`getFullYear`, `getMonth() + 1`, `getDate`, `getHours`, `getMinutes`,
`getSeconds`); an invalid date (`isNaN(date.getTime())`) is `none`.  For a
valid date the accessors return finite integers, so the source's
`isNaN(year) || ...` probe (which can fire only on an invalid date,
already handled) has no model counterpart.  The source wraps everything in
`try`/`catch`; the model is total, so "never throws" holds by
construction.  `localeF` models `toLocaleDateString('zh-CN')`, reachable
only on a `"NaN"`-containing result and therefore (provably) never. -/

structure JSDateTime where
  year : Nat
  month : Nat
  day : Nat
  hours : Nat
  minutes : Nat
  seconds : Nat
deriving DecidableEq

/-- `String(n).padStart(2, '0')` for a natural. -/
def pad2 (n : Nat) : List Char :=
  if n < 10 then '0' :: natToChars n else natToChars n

/-- `str.slice(-2)`: the last two characters (the whole string when it is
shorter). -/
def lastTwo (l : List Char) : List Char :=
  if l.length ≤ 2 then l else l.drop (l.length - 2)

/-- `safeFormat` (src/fileImport.ts:3954-3959): empty out any result that
is falsy or contains `"NaN"`, `"undefined"` or `"null"`. -/
def safeFormat (l : List Char) : List Char :=
  if l.isEmpty || containsList l ("NaN".toList) ||
     containsList l ("undefined".toList) || containsList l ("null".toList)
  then [] else l

def isMChar (c : Char) : Bool := c = 'm' || c = 'M'
def isDChar (c : Char) : Bool := c = 'd' || c = 'D'
def isYChar (c : Char) : Bool := c = 'y' || c = 'Y'

/-- Match of `/m+\/d+\/y+/i` anchored at the head of the input. -/
def mdyAt (s : List Char) : Bool :=
  let ms := s.takeWhile isMChar
  let r1 := s.dropWhile isMChar
  if ms.isEmpty then false
  else
    match r1 with
    | '/' :: r2 =>
      let ds := r2.takeWhile isDChar
      let r3 := r2.dropWhile isDChar
      if ds.isEmpty then false
      else
        match r3 with
        | '/' :: r4 => !(r4.takeWhile isYChar).isEmpty
        | _ => false
    | _ => false

/-- Match of `/d+\/m+\/y+/i` anchored at the head of the input. -/
def dmyAt (s : List Char) : Bool :=
  let ds := s.takeWhile isDChar
  let r1 := s.dropWhile isDChar
  if ds.isEmpty then false
  else
    match r1 with
    | '/' :: r2 =>
      let ms := r2.takeWhile isMChar
      let r3 := r2.dropWhile isMChar
      if ms.isEmpty then false
      else
        match r3 with
        | '/' :: r4 => !(r4.takeWhile isYChar).isEmpty
        | _ => false
    | _ => false

/-- Unanchored regex search: does the pattern match at some position? -/
def matchesSomewhere (f : List Char → Bool) : List Char → Bool
  | [] => f []
  | c :: rest => f (c :: rest) || matchesSomewhere f rest

def matchesMDY (s : String) : Bool := matchesSomewhere mdyAt s.toList

def matchesDMY (s : String) : Bool := matchesSomewhere dmyAt s.toList

/-- `formatDateByPattern` (src/fileImport.ts:3914-4057): the prioritized
pattern-family chain.  A missing or invalid date yields `""`; a year
outside 1900-2100 or an out-of-range month/day yields `""`; each family
branch renders through `safeFormat`; the final fallback renders
`year/month/day` and would fall back to the locale string only if that
contained `"NaN"`. -/
def formatDateByPattern (localeF : JSDateTime → List Char)
    (dOpt : Option JSDateTime) (numFmt : Option String) : List Char :=
  match dOpt with
  | none => []
  | some dt =>
    if dt.year < 1900 || dt.year > 2100 || dt.month < 1 || dt.month > 12 ||
       dt.day < 1 || dt.day > 31 then []
    else
      match numFmt with
      | none =>
        safeFormat (natToChars dt.year ++ '/' :: natToChars dt.month ++
          '/' :: natToChars dt.day)
      | some f =>
        if f = "" || f = "General" then
          safeFormat (natToChars dt.year ++ '/' :: natToChars dt.month ++
            '/' :: natToChars dt.day)
        else if includesStr f "yyyy" && includesStr f "/" then
          if includesStr f "h:mm" || includesStr f "hh:mm" then
            if includesStr f "mm/dd" then
              safeFormat (natToChars dt.year ++ '/' :: pad2 dt.month ++
                '/' :: pad2 dt.day ++ ' ' :: natToChars dt.hours ++
                ':' :: pad2 dt.minutes ++ ':' :: pad2 dt.seconds)
            else
              safeFormat (natToChars dt.year ++ '/' :: natToChars dt.month ++
                '/' :: natToChars dt.day ++ ' ' :: natToChars dt.hours ++
                ':' :: pad2 dt.minutes ++ ':' :: pad2 dt.seconds)
          else if includesStr f "mm" && includesStr f "dd" then
            safeFormat (natToChars dt.year ++ '/' :: pad2 dt.month ++
              '/' :: pad2 dt.day)
          else
            safeFormat (natToChars dt.year ++ '/' :: natToChars dt.month ++
              '/' :: natToChars dt.day)
        else if includesStr f "yyyy" && includesStr f "-" then
          if includesStr f "mm" && includesStr f "dd" then
            safeFormat (natToChars dt.year ++ '-' :: pad2 dt.month ++
              '-' :: pad2 dt.day)
          else
            safeFormat (natToChars dt.year ++ '-' :: natToChars dt.month ++
              '-' :: natToChars dt.day)
        else if matchesMDY f then
          if includesStr f "mm" && includesStr f "dd" then
            safeFormat (pad2 dt.month ++ '/' :: pad2 dt.day ++
              '/' :: lastTwo (natToChars dt.year))
          else
            safeFormat (natToChars dt.month ++ '/' :: natToChars dt.day ++
              '/' :: lastTwo (natToChars dt.year))
        else if matchesDMY f then
          if includesStr f "mm" && includesStr f "dd" then
            safeFormat (pad2 dt.day ++ '/' :: pad2 dt.month ++
              '/' :: lastTwo (natToChars dt.year))
          else
            safeFormat (natToChars dt.day ++ '/' :: natToChars dt.month ++
              '/' :: lastTwo (natToChars dt.year))
        else if includesStr f "年" && includesStr f "月" && includesStr f "日" then
          safeFormat (natToChars dt.year ++ '年' :: natToChars dt.month ++
            '月' :: natToChars dt.day ++ ['日'])
        else
          if containsList (natToChars dt.year ++ '/' :: natToChars dt.month ++
              '/' :: natToChars dt.day) ("NaN".toList) then
            localeF dt
          else
            natToChars dt.year ++ '/' :: natToChars dt.month ++
              '/' :: natToChars dt.day

/-! ### `parseDateString` -/

/-- JS `String.prototype.trim` (ASCII whitespace; the further Unicode
whitespace JS also trims does not occur in date strings). -/
def isWSChar (c : Char) : Bool :=
  c = ' ' || c = '\t' || c = '\n' || c = '\r'

def trimList (s : List Char) : List Char :=
  ((s.dropWhile isWSChar).reverse.dropWhile isWSChar).reverse

/-- Split on a separator character (groups between separators). -/
def splitOn (sep : Char) : List Char → List (List Char)
  | [] => [[]]
  | c :: rest =>
    let r := splitOn sep rest
    if c = sep then [] :: r
    else
      match r with
      | [] => [[c]]
      | g :: gs => (c :: g) :: gs

def allDigits (l : List Char) : Bool := l.all isDigitCh

/-- ECMAScript `new Date(y, m, d)` for integer arguments (local-time
constructor, date part): a year 0-99 is offset by 1900, the month index is
normalized into the year, and the day is added as a day offset.  The model
covers results at/after year 0, which holds for every call site here
(4-digit-year patterns). -/
def jsMakeDate (y : Nat) (monthIndex day : Int) : CivilDate :=
  let yAdj := if y ≤ 99 then y + 1900 else y
  let q := Int.fdiv monthIndex 12
  let mn := monthIndex - 12 * q
  let ym : Int := (yAdj : Int) + q
  let dayNum : Int :=
    (daysFromCivil ⟨ym.toNat, mn.toNat + 1, 1⟩ : Int) + (day - 1)
  civilFromDays dayNum.toNat

/-- Format 1, `^(\d{4})\/(\d{1,2})\/(\d{1,2})$` (the separator cannot occur
inside the digit groups, so the anchored regex is equivalent to a
three-way split). -/
def parsePattern1 (s : List Char) : Option CivilDate :=
  match splitOn '/' s with
  | [a, b, c] =>
    if allDigits a ∧ a.length = 4 ∧ allDigits b ∧ 1 ≤ b.length ∧ b.length ≤ 2 ∧
       allDigits c ∧ 1 ≤ c.length ∧ c.length ≤ 2 then
      some (jsMakeDate (natOfDigits a) ((natOfDigits b : Int) - 1)
        (natOfDigits c))
    else none
  | _ => none

/-- Format 2, `^(\d{4})-(\d{1,2})-(\d{1,2})$`. -/
def parsePattern2 (s : List Char) : Option CivilDate :=
  match splitOn '-' s with
  | [a, b, c] =>
    if allDigits a ∧ a.length = 4 ∧ allDigits b ∧ 1 ≤ b.length ∧ b.length ≤ 2 ∧
       allDigits c ∧ 1 ≤ c.length ∧ c.length ≤ 2 then
      some (jsMakeDate (natOfDigits a) ((natOfDigits b : Int) - 1)
        (natOfDigits c))
    else none
  | _ => none

/-- Format 3, `^(\d{4})年(\d{1,2})月(\d{1,2})日$`. -/
def parsePattern3 (s : List Char) : Option CivilDate :=
  let a := s.takeWhile isDigitCh
  let r1 := s.dropWhile isDigitCh
  if a.length = 4 then
    match r1 with
    | '年' :: r2 =>
      let b := r2.takeWhile isDigitCh
      let r3 := r2.dropWhile isDigitCh
      if 1 ≤ b.length ∧ b.length ≤ 2 then
        match r3 with
        | '月' :: r4 =>
          let c := r4.takeWhile isDigitCh
          let r5 := r4.dropWhile isDigitCh
          if 1 ≤ c.length ∧ c.length ≤ 2 then
            match r5 with
            | ['日'] =>
              some (jsMakeDate (natOfDigits a) ((natOfDigits b : Int) - 1)
                (natOfDigits c))
            | _ => none
          else none
        | _ => none
      else none
    | _ => none
  else none

/-- Format 4, `^(\d{1,2})\/(\d{1,2})\/(\d{4})$` (US order). -/
def parsePattern4 (s : List Char) : Option CivilDate :=
  match splitOn '/' s with
  | [a, b, c] =>
    if allDigits a ∧ 1 ≤ a.length ∧ a.length ≤ 2 ∧ allDigits b ∧
       1 ≤ b.length ∧ b.length ≤ 2 ∧ allDigits c ∧ c.length = 4 then
      some (jsMakeDate (natOfDigits c) ((natOfDigits a : Int) - 1)
        (natOfDigits b))
    else none
  | _ => none

/-- `parseDateString` (src/fileImport.ts:3820-3906): falsy/blank input is
rejected, the four literal formats are tried in order (the normalized
`new Date(y, m, d)` of a matching format is always a valid JS date for a
4-digit year, so a match returns), and finally the native `Date` parser —
a black box, passed in as `nativeParse` — is consulted, its result kept
only when valid with `1900 ≤ year ≤ 2100`. -/
def parseDateString (nativeParse : List Char → Option CivilDate)
    (s : List Char) : Option CivilDate :=
  if s.isEmpty then none
  else if (trimList s).isEmpty then none
  else
    match parsePattern1 (trimList s) with
    | some d => some d
    | none =>
      match parsePattern2 (trimList s) with
      | some d => some d
      | none =>
        match parsePattern3 (trimList s) with
        | some d => some d
        | none =>
          match parsePattern4 (trimList s) with
          | some d => some d
          | none =>
            match nativeParse (trimList s) with
            | some d => if 1900 ≤ d.year ∧ d.year ≤ 2100 then some d else none
            | none => none

/-! ### C3 lemmas: no rendered string contains `"NaN"` -/

/-- No char of the list is `'N'`. -/
def noN (l : List Char) : Prop := ∀ c ∈ l, c ≠ 'N'

theorem noN_nil : noN [] := fun c hc => absurd hc (List.not_mem_nil c)

theorem noN_append {a b : List Char} (ha : noN a) (hb : noN b) :
    noN (a ++ b) := by
  intro c hc
  rcases List.mem_append.mp hc with h | h
  · exact ha c h
  · exact hb c h

theorem noN_cons {c0 : Char} {l : List Char} (h0 : c0 ≠ 'N') (hl : noN l) :
    noN (c0 :: l) := by
  intro c hc
  rcases List.mem_cons.mp hc with h | h
  · exact h ▸ h0
  · exact hl c h

theorem charOfNat_digit_ne_N (k : Nat) (hk : k < 10) :
    Char.ofNat (48 + k) ≠ 'N' := by
  interval_cases k <;> decide

theorem natToCharsAux_noN (fuel n : Nat) : noN (natToCharsAux fuel n) := by
  induction fuel generalizing n with
  | zero =>
    intro c hc
    simp only [natToCharsAux, List.mem_singleton] at hc
    subst hc
    exact charOfNat_digit_ne_N _ (Nat.mod_lt _ (by omega))
  | succ fuel ih =>
    intro c hc
    simp only [natToCharsAux] at hc
    split at hc
    · rename_i hn
      simp only [List.mem_singleton] at hc
      subst hc
      exact charOfNat_digit_ne_N _ hn
    · simp only [List.mem_append, List.mem_singleton] at hc
      rcases hc with hc | hc
      · exact ih _ c hc
      · subst hc
        exact charOfNat_digit_ne_N _ (Nat.mod_lt _ (by omega))

theorem noN_natToChars (n : Nat) : noN (natToChars n) :=
  natToCharsAux_noN n n

theorem noN_pad2 (n : Nat) : noN (pad2 n) := by
  unfold pad2
  split
  · exact noN_cons (by decide) (noN_natToChars n)
  · exact noN_natToChars n

theorem noN_lastTwo {l : List Char} (h : noN l) : noN (lastTwo l) := by
  unfold lastTwo
  split
  · exact h
  · intro c hc
    exact h c (List.mem_of_mem_drop hc)

theorem containsList_head_mem (s : List Char) (c : Char) (cs : List Char)
    (h : containsList s (c :: cs) = true) : c ∈ s := by
  induction s with
  | nil => simp [containsList, startsWithList] at h
  | cons a rest ih =>
    unfold containsList at h
    simp only [Bool.or_eq_true] at h
    rcases h with h | h
    · unfold startsWithList at h
      simp only [Bool.and_eq_true, beq_iff_eq] at h
      exact List.mem_cons.mpr (Or.inl h.1)
    · exact List.mem_cons_of_mem _ (ih h)

theorem no_nan_of_noN (l : List Char) (h : noN l) :
    containsList l ("NaN".toList) = false := by
  cases hb : containsList l ("NaN".toList) with
  | false => rfl
  | true =>
    have hb2 : containsList l ('N' :: 'a' :: 'N' :: []) = true := hb
    exact absurd rfl (h 'N' (containsList_head_mem l 'N' ['a', 'N'] hb2))

theorem containsList_safeFormat_nan (l : List Char) :
    containsList (safeFormat l) ("NaN".toList) = false := by
  unfold safeFormat
  split
  · rfl
  · rename_i hcond
    cases hb : containsList l ("NaN".toList) with
    | false => rfl
    | true =>
      refine absurd ?_ hcond
      rw [hb]
      simp

/-- The default `year/month/day` rendering contains no `'N'`. -/
theorem noN_ymd (y m d : Nat) :
    noN (natToChars y ++ '/' :: natToChars m ++ '/' :: natToChars d) :=
  noN_append
    (noN_append (noN_natToChars y)
      (noN_cons (by decide) (noN_natToChars m)))
    (noN_cons (by decide) (noN_natToChars d))

/-- C3: the date-formatting and date-parsing paths are safe — modelled
totally (the source guards every branch and wraps in `try`/`catch`, so
neither function can throw):
(1) `formatDateByPattern` never produces a string containing `"NaN"`, for
every date, pattern and locale-fallback behaviour;
(2) a missing/invalid date formats to the empty string;
(3) a date with year outside 1900-2100 formats to the empty string;
(4) a blank input parses to `null`;
(5) when no literal format matches and the native fallback fails,
parsing returns `null`. -/
theorem c3_date_format_parse_safety :
    (∀ (localeF : JSDateTime → List Char) (dOpt : Option JSDateTime)
        (numFmt : Option String),
      containsList (formatDateByPattern localeF dOpt numFmt) ("NaN".toList)
        = false) ∧
    (∀ (localeF : JSDateTime → List Char) (numFmt : Option String),
      formatDateByPattern localeF none numFmt = []) ∧
    (∀ (localeF : JSDateTime → List Char) (dt : JSDateTime)
        (numFmt : Option String), dt.year < 1900 ∨ dt.year > 2100 →
      formatDateByPattern localeF (some dt) numFmt = []) ∧
    (∀ (nativeParse : List Char → Option CivilDate) (s : List Char),
      trimList s = [] → parseDateString nativeParse s = none) ∧
    (∀ (nativeParse : List Char → Option CivilDate) (s : List Char),
      nativeParse (trimList s) = none →
      parsePattern1 (trimList s) = none → parsePattern2 (trimList s) = none →
      parsePattern3 (trimList s) = none → parsePattern4 (trimList s) = none →
      parseDateString nativeParse s = none) := by
  refine ⟨?_, ?_, ?_, ?_, ?_⟩
  · intro localeF dOpt numFmt
    unfold formatDateByPattern
    repeat' split
    all_goals
      first
        | rfl
        | exact containsList_safeFormat_nan _
        | exact no_nan_of_noN _ (noN_ymd _ _ _)
        | (rename_i hcond
           rw [no_nan_of_noN _ (noN_ymd _ _ _)] at hcond
           exact Bool.noConfusion hcond)
  · intro localeF numFmt
    rfl
  · intro localeF dt numFmt h
    unfold formatDateByPattern
    repeat' split
    all_goals
      first
        | rfl
        | (exfalso; rcases h with h | h <;> simp_all <;> omega)
  · intro nativeParse s htrim
    unfold parseDateString
    split
    · rfl
    · rw [htrim]
      rfl
  · intro nativeParse s hn h1 h2 h3 h4
    unfold parseDateString
    split
    · rfl
    · split
      · rfl
      · rw [h1, h2, h3, h4, hn]

/-- C3 witness: concrete instances of each conjunct. -/
theorem c3_date_format_parse_safety_witness :
    containsList
        (formatDateByPattern (fun _ => []) (some ⟨2026, 1, 7, 0, 0, 0⟩)
          (some "yyyy-mm-dd")) ("NaN".toList) = false ∧
    formatDateByPattern (fun _ => []) none (some "yyyy-mm-dd") = [] ∧
    formatDateByPattern (fun _ => []) (some ⟨1800, 1, 1, 0, 0, 0⟩) none = [] ∧
    parseDateString (fun _ => none) ("   ".toList) = none ∧
    parseDateString (fun _ => none) ("hello".toList) = none := by
  refine ⟨?_, ?_, ?_, ?_, ?_⟩
  · exact c3_date_format_parse_safety.1 (fun _ => []) (some ⟨2026, 1, 7, 0, 0, 0⟩)
      (some "yyyy-mm-dd")
  · exact c3_date_format_parse_safety.2.1 (fun _ => []) (some "yyyy-mm-dd")
  · exact c3_date_format_parse_safety.2.2.1 (fun _ => []) ⟨1800, 1, 1, 0, 0, 0⟩
      none (by left; decide)
  · exact c3_date_format_parse_safety.2.2.2.1 (fun _ => none) ("   ".toList)
      (by decide)
  · exact c3_date_format_parse_safety.2.2.2.2 (fun _ => none) ("hello".toList)
      rfl (by decide) (by decide) (by decide) (by decide)

end FileImport
